import Mathlib

/-!
# Palette editor (`src/commands/cmd_palette_editor.cpp`)

A shallow embedding of the selection-scoped palette mutation, the colour
clipboard and the undo-coalescing scheduler of `PaletteEntryEditor`.

* A palette is the list of its packed 32-bit entries.
* The selection of the palette view is the list of its booleans
  (`PaletteView::getSelectedEntries`) together with the answer of
  `PaletteView::getSelectedRange`.
* The `double` arithmetic of `gfx::Hsv` / `gfx::Rgb` never happens in the
  editor itself; the conversions are parameters of the development.
-/

namespace PaletteEditor

/-! ## Packed colours -/

/-- Modelled from the spec: the pixel macro `_rgba` of `raster/image.h` is not
part of the sources at hand.  A palette entry is a packed RGB value with an
opacity byte; red sits in the low byte, then green, blue and alpha, and the
result is a `uint32_t`. -/
def _rgba (r g b a : Nat) : Nat :=
  ((r <<< 0) ||| (g <<< 8) ||| (b <<< 16) ||| (a <<< 24)) % 2 ^ 32

/-- Modelled from the spec: the accessor macro `_rgba_getr` (red byte). -/
def _rgba_getr (c : Nat) : Nat := (c >>> 0) &&& 0xff

/-- Modelled from the spec: the accessor macro `_rgba_getg` (green byte). -/
def _rgba_getg (c : Nat) : Nat := (c >>> 8) &&& 0xff

/-- Modelled from the spec: the accessor macro `_rgba_getb` (blue byte). -/
def _rgba_getb (c : Nat) : Nat := (c >>> 16) &&& 0xff

/-- Modelled from the spec: the accessor macro `_rgba_geta` (opacity byte). -/
def _rgba_geta (c : Nat) : Nat := (c >>> 24) &&& 0xff

/-! ## Palettes -/

/-- The colours of a `Palette`, index by index. -/
abbrev Palette := List Nat

/-- Modelled from the spec: `Palette::size`, the number of entries. -/
def Palette.size (p : Palette) : Nat := p.length

/-- Modelled from the spec: `Palette::getEntry`, the packed colour at an index. -/
def Palette.getEntry (p : Palette) (i : Nat) : Nat := p.getD i 0

/-- Modelled from the spec: `Palette::setEntry`, which replaces the packed colour
at an index and nothing else. -/
def Palette.setEntry (p : Palette) (i : Nat) (color : Nat) : Palette := p.set i color

/-- Embedding of `PaletteView::SelectedEntries`: one boolean per palette index. -/
abbrev SelectedEntries := List Bool

/-- The subscript `entries[c]` of the selection vector. -/
def isSelected (entries : SelectedEntries) (c : Nat) : Bool := entries.getD c false

/-! ## Colours and colour models -/

/-- Embedding of `gfx::Rgb`: three integer components. -/
structure Rgb where
  red : Nat
  green : Nat
  blue : Nat
  deriving DecidableEq, Repr

/-- Embedding of `gfx::Hsv` over a carrier `D` standing for `double`. -/
structure Hsv (D : Type) where
  hue : D
  saturation : D
  value : D

/-- The floating point side of the editor, none of which is computed in
`cmd_palette_editor.cpp`: the conversion of an `int` to `double`, the
expression `double(x) / 100.0`, and the two converting constructors
`Rgb::Rgb(const Hsv&)` and `Hsv::Hsv(const Rgb&)`. -/
structure ColorModel (D : Type) where
  ofInt : Nat → D
  percent : Nat → D
  toRgb : Hsv D → Rgb
  ofRgb : Rgb → Hsv D

/-- Embedding of `Color::Type`, restricted to the representations the spec names. -/
inductive ColorType
  | RgbType
  | HsvType
  | IndexType
  deriving DecidableEq, Repr

/-- Modelled from the spec: class `Color` (`app/color.h`) is not part of the
sources at hand.  A colour is a tagged value: an RGB triple, an HSV triple
(hue in degrees, saturation and value in percent) or an index into the
current palette. -/
inductive Color
  | rgb (r g b : Nat)
  | hsv (h s v : Nat)
  | index (i : Nat)
  deriving DecidableEq, Repr

/-- Modelled from the spec: `Color::getType`, the tag of the value. -/
def Color.getType : Color → ColorType
  | .rgb _ _ _ => .RgbType
  | .hsv _ _ _ => .HsvType
  | .index _ => .IndexType

/-- Modelled from the spec: the RGB value of a colour.  An RGB triple is its
own value, an HSV triple is converted by the colour model converter, an index
is looked up in the current palette. -/
def Color.toRgb {D : Type} (M : ColorModel D) (cur : Palette) : Color → Rgb
  | .rgb r g b => ⟨r, g, b⟩
  | .hsv h s v => M.toRgb ⟨M.ofInt h, M.percent s, M.percent v⟩
  | .index i =>
      ⟨_rgba_getr (cur.getEntry i), _rgba_getg (cur.getEntry i), _rgba_getb (cur.getEntry i)⟩

/-- Modelled from the spec: `Color::getRed`, the red component of the RGB value. -/
def Color.getRed {D : Type} (M : ColorModel D) (cur : Palette) (c : Color) : Nat :=
  (c.toRgb M cur).red

/-- Modelled from the spec: `Color::getGreen`, the green component of the RGB
value. -/
def Color.getGreen {D : Type} (M : ColorModel D) (cur : Palette) (c : Color) : Nat :=
  (c.toRgb M cur).green

/-- Modelled from the spec: `Color::getBlue`, the blue component of the RGB value. -/
def Color.getBlue {D : Type} (M : ColorModel D) (cur : Palette) (c : Color) : Nat :=
  (c.toRgb M cur).blue

/-- Modelled from the spec: `Color::getHue`, the hue of an HSV triple; the
editor calls it on HSV-typed colours only. -/
def Color.getHue : Color → Nat
  | .hsv h _ _ => h
  | _ => 0

/-- Modelled from the spec: `Color::getSaturation`, the saturation of an HSV
triple; the editor calls it on HSV-typed colours only. -/
def Color.getSaturation : Color → Nat
  | .hsv _ s _ => s
  | _ => 0

/-- Modelled from the spec: `Color::getValue`, the value of an HSV triple; the
editor calls it on HSV-typed colours only. -/
def Color.getValue : Color → Nat
  | .hsv _ _ v => v
  | _ => 0

/-- Embedding of `ColorSliders::Channel`. -/
inductive Channel
  | Red
  | Green
  | Blue
  | Hue
  | Saturation
  | Value
  deriving DecidableEq, Repr

/-! ## Selection-scoped mutation -/

/-- The loop `for (int c=0; c<palette->size(); c++) if (entries[c]) ...` whose
body reads and writes entry `c` only. -/
def forSelected (entries : SelectedEntries) (body : Nat → Palette → Palette)
    (palette : Palette) : Palette :=
  (List.range palette.size).foldl
    (fun pal c => if isSelected entries c then body c pal else pal) palette

/-- Embedding of `PaletteEntryEditor::setPaletteEntry`. -/
def setPaletteEntry {D : Type} (M : ColorModel D) (entries : SelectedEntries)
    (color : Color) (palette : Palette) : Palette :=
  let new_pal_color :=
    _rgba (color.getRed M palette) (color.getGreen M palette) (color.getBlue M palette) 255
  forSelected entries (fun c pal => pal.setEntry c new_pal_color) palette

/-- The inner `switch (channel)` of the RGB case. `Red` has no `break` and
runs on into `Green`. -/
def rgbChannelSwitch (channel : Channel) (cr cg cb : Nat) (rgb : Rgb) : Rgb :=
  match channel with
  | .Red => { rgb with red := cr, green := cg }
  | .Green => { rgb with green := cg }
  | .Blue => { rgb with blue := cb }
  | _ => rgb

/-- The inner `switch (channel)` of the HSV case. -/
def hsvChannelSwitch {D : Type} (M : ColorModel D) (channel : Channel) (color : Color)
    (hsv : Hsv D) : Hsv D :=
  match channel with
  | .Hue => { hsv with hue := M.ofInt color.getHue }
  | .Saturation => { hsv with saturation := M.percent color.getSaturation }
  | .Value => { hsv with value := M.percent color.getValue }
  | _ => hsv

/-- The body of the loop of `setPaletteEntryChannel` for one selected entry
`src_color`: the new `r`, `g`, `b` of that entry.  `cur` is the palette as the
loop sees it when the body runs. -/
def channelBody {D : Type} (M : ColorModel D) (color : Color) (channel : Channel)
    (begSel endSel : Nat) (cur : Palette) (src_color : Nat) : Rgb :=
  let rgb : Rgb := ⟨_rgba_getr src_color, _rgba_getg src_color, _rgba_getb src_color⟩
  match color.getType with
  | .RgbType =>
      if begSel = endSel then
        ⟨color.getRed M cur, color.getGreen M cur, color.getBlue M cur⟩
      else
        rgbChannelSwitch channel (color.getRed M cur) (color.getGreen M cur)
          (color.getBlue M cur) rgb
  | .HsvType =>
      let hsv : Hsv D :=
        if begSel = endSel then
          ⟨M.ofInt color.getHue, M.percent color.getSaturation, M.percent color.getValue⟩
        else
          hsvChannelSwitch M channel color (M.ofRgb rgb)
      M.toRgb hsv
  | .IndexType => rgb

/-- Embedding of `PaletteEntryEditor::setPaletteEntryChannel`.  `range` is what
`PaletteView::getSelectedRange(begSel, endSel)` answered: `none` when it
returned `false`. -/
def setPaletteEntryChannel {D : Type} (M : ColorModel D) (entries : SelectedEntries)
    (range : Option (Nat × Nat)) (color : Color) (channel : Channel)
    (palette : Palette) : Palette :=
  match range with
  | none => palette
  | some (begSel, endSel) =>
      forSelected entries
        (fun c pal =>
          let rgb := channelBody M color channel begSel endSel pal (pal.getEntry c)
          pal.setEntry c (_rgba rgb.red rgb.green rgb.blue 255))
        palette

/-- The red, green and blue bytes of entry `p` of a palette. -/
def entryRgb (pal : Palette) (p : Nat) : Rgb :=
  ⟨_rgba_getr (pal.getEntry p), _rgba_getg (pal.getEntry p), _rgba_getb (pal.getEntry p)⟩

/-! ## Clipboard -/

/-- The loop of `onCopyColorsClick`: every selected entry is pushed to the back
of the (cleared) clipboard vector. -/
def copyLoop (selectedEntries : SelectedEntries) (palette : Palette) : List Nat :=
  (List.range selectedEntries.length).foldl
    (fun clip i => if isSelected selectedEntries i then clip ++ [palette.getEntry i] else clip)
    []

/-- The counting loop of `onPasteColorsClick` (`selectedEntriesCount`). -/
def countSelected (selectedEntries : SelectedEntries) : Nat :=
  (List.range selectedEntries.length).foldl
    (fun n i => if isSelected selectedEntries i then n + 1 else n) 0

/-- One turn of the paste loop at index `i`; the state is `(j, palette)`.  The
loop condition `j < m_clipboardColors.size()` is tested first: once it fails
the loop is over and the remaining indices change nothing. -/
def pasteStep (selectedEntries : SelectedEntries) (clipboard : List Nat)
    (selectedEntriesCount : Nat) (st : Nat × Palette) (i : Nat) : Nat × Palette :=
  if st.1 < clipboard.length then
    if isSelected selectedEntries i || decide (st.1 ≥ selectedEntriesCount) then
      (st.1 + 1, st.2.setEntry i (clipboard.getD st.1 0))
    else st
  else st

/-- The paste loop of `onPasteColorsClick`:
`for (i=0, j=0; i < selectedEntries.size() && j < clipboard.size(); ++i)`. -/
def pasteLoop (selectedEntries : SelectedEntries) (clipboard : List Nat)
    (palette : Palette) : Palette :=
  ((List.range selectedEntries.length).foldl
    (pasteStep selectedEntries clipboard (countSelected selectedEntries)) (0, palette)).2

/-- The selected indices of a selection vector, in ascending order. -/
def selectedIndices (selectedEntries : SelectedEntries) : List Nat :=
  (List.range selectedEntries.length).filter (fun i => isSelected selectedEntries i)

/-- The number of selected indices below `t`. -/
def selectedBefore (selectedEntries : SelectedEntries) : Nat → Nat
  | 0 => 0
  | t + 1 => selectedBefore selectedEntries t + (if isSelected selectedEntries t then 1 else 0)

/-- One past the last selected index below `t`, and `0` when no index below
`t` is selected. -/
def selectionEnd (selectedEntries : SelectedEntries) : Nat → Nat
  | 0 => 0
  | t + 1 => if isSelected selectedEntries t then t + 1 else selectionEnd selectedEntries t

/-! ## Undo history, document and editor state -/

/-- The undoers the editor pushes (`undoers::OpenGroup`, `undoers::CloseGroup`,
`undoers::SetPaletteColors`).  A `SetPaletteColors` keeps the range and the
colours of the sprite palette in that range before the change. -/
inductive Undoer
  | OpenGroup
  | CloseGroup
  | SetPaletteColors (from_ to_ : Nat) (colors : List Nat)
  deriving DecidableEq, Repr

/-- Embedding of `undo::Modification`. -/
inductive Modification
  | ModifyDocument
  | DoesntModifyDocument
  deriving DecidableEq, Repr

/-- Modelled from the spec: `undo::UndoHistory` is an external collaborator
offering push, graft and label operations; its sources are not at hand.  The
history is the sequence of its undoers, oldest first. -/
structure UndoHistory where
  enabled : Bool
  label : String
  modification : Modification
  undoers : List Undoer
  deriving DecidableEq, Repr

/-- Modelled from the spec: `UndoHistory::isEnabled`. -/
def UndoHistory.isEnabled (u : UndoHistory) : Bool := u.enabled

/-- Modelled from the spec: `UndoHistory::getLabel`, the label set last. -/
def UndoHistory.getLabel (u : UndoHistory) : String := u.label

/-- Modelled from the spec: `UndoHistory::setLabel`. -/
def UndoHistory.setLabel (u : UndoHistory) (label : String) : UndoHistory :=
  { u with label := label }

/-- Modelled from the spec: `UndoHistory::setModification`. -/
def UndoHistory.setModification (u : UndoHistory) (m : Modification) : UndoHistory :=
  { u with modification := m }

/-- Modelled from the spec: `UndoHistory::pushUndoer` adds an undoer at the
recent end of the history. -/
def UndoHistory.pushUndoer (u : UndoHistory) (x : Undoer) : UndoHistory :=
  { u with undoers := u.undoers ++ [x] }

/-- Modelled from the spec: `UndoHistory::graftUndoerInLastGroup` merges the
undoer into the most recently pushed group instead of pushing a new one: it
is placed in front of the undoer that ends the history (the `CloseGroup` of
the last group). -/
def UndoHistory.graftUndoerInLastGroup (u : UndoHistory) (x : Undoer) : UndoHistory :=
  { u with undoers := u.undoers.dropLast ++ [x] ++ u.undoers.getLast?.toList }

/-- The number of undo groups opened in the history. -/
def UndoHistory.groupCount (u : UndoHistory) : Nat := u.undoers.count Undoer.OpenGroup

/-- The indices at which two palettes differ, in ascending order. -/
def diffIndices (old new : Palette) : List Nat :=
  (List.range (min old.length new.length)).filter (fun c => old.getD c 0 != new.getD c 0)

/-- Modelled from the spec: `Palette::countDiff` (section 4.3) gives the first
and the last index at which the two palettes differ, and leaves `from` and
`to` at their initial `-1` when no entry differs. -/
def countDiff (old new : Palette) : Int × Int :=
  match (diffIndices old new).head?, (diffIndices old new).getLast? with
  | some a, some b => ((a : Int), (b : Int))
  | _, _ => (-1, -1)

/-- The active document as the editor sees it: the palette of the sprite at
its current frame, the undo history, and whether `ActiveDocumentWriter` /
`ActiveDocumentReader` throw when they are built. -/
structure Document where
  spritePalette : Palette
  undo : UndoHistory
  lockFails : Bool
  deriving DecidableEq, Repr

/-- What `PaletteView` answers: `getSelectedEntries`, `getSelectedRange`
(`none` for `false`) and `getSelectedEntry`. -/
structure PaletteView where
  selectedEntries : SelectedEntries
  selectedRange : Option (Nat × Nat)
  selectedEntry : Int
  deriving DecidableEq, Repr

/-- Calls the editor makes to its collaborators, in the order they happen. -/
inductive Event
  | TimerStart
  | TimerStop
  | PaletteChange
  | UpdateEditorsWithDocument
  | UpdateCurrentEditor
  | InvalidatePaletteView
  | InvalidateColorBar
  | InvalidateFrame
  | SetColor (color : Color)
  | SaveWindowPos
  | SetPaletteEditorButtonState (state : Bool)
  | ShowException
  deriving DecidableEq, Repr

/-- The fields of `PaletteEntryEditor` that the engine reads and writes;
`timerRunning` is `m_redrawTimer.isRunning()`. -/
structure PaletteEntryEditor where
  timerRunning : Bool
  m_redrawAll : Bool
  m_graftChange : Bool
  m_selfPalChange : Bool
  m_disableHexUpdate : Bool
  m_clipboardColors : List Nat
  deriving DecidableEq, Repr

/-- The editor together with what it reaches through globals: the system
current palette (`get_current_palette()`), the palette view of the colour bar,
the active document of the UI context (`none` when there is no document or no
sprite) and the calls made so far. -/
structure World where
  editor : PaletteEntryEditor
  palette : Palette
  paletteView : PaletteView
  document : Option Document
  events : List Event
  deriving DecidableEq, Repr

/-- Append one collaborator call to the record. -/
def World.emit (w : World) (e : Event) : World := { w with events := w.events ++ [e] }

/-- The state the constructor leaves: timer created but not started, all
flags false, empty clipboard. -/
def PaletteEntryEditor.init : PaletteEntryEditor :=
  { timerRunning := false, m_redrawAll := false, m_graftChange := false,
    m_selfPalChange := false, m_disableHexUpdate := false, m_clipboardColors := [] }

/-- The undoer `new undoers::SetPaletteColors(objects, sprite, palette, from, to)`. -/
def mkSetPaletteColors (palette : Palette) (from_ to_ : Nat) : Undoer :=
  Undoer.SetPaletteColors from_ to_ ((palette.drop from_).take (to_ + 1 - from_))

/-- The undo part of `updateCurrentSpritePalette` once the diff range is known
to be non-empty and the history is enabled. -/
def recordUndo (m_graftChange : Bool) (operationName : String) (undo : UndoHistory)
    (currentSpritePalette : Palette) (from_ to_ : Nat) : UndoHistory :=
  if m_graftChange && (undo.getLabel == operationName) then
    ((undo.setLabel operationName).setModification Modification.ModifyDocument).graftUndoerInLastGroup
      (mkSetPaletteColors currentSpritePalette from_ to_)
  else
    ((((undo.setLabel operationName).setModification Modification.ModifyDocument).pushUndoer
      Undoer.OpenGroup).pushUndoer
      (mkSetPaletteColors currentSpritePalette from_ to_)).pushUndoer Undoer.CloseGroup

/-- The `try` block of `updateCurrentSpritePalette` for an active document
with a sprite. -/
def updateDocument (m_graftChange : Bool) (operationName : String) (newPalette : Palette)
    (doc : Document) : Document :=
  let currentSpritePalette := doc.spritePalette
  let from_ := (countDiff currentSpritePalette newPalette).1
  let to_ := (countDiff currentSpritePalette newPalette).2
  if from_ ≥ 0 ∧ to_ ≥ from_ then
    let undo :=
      if doc.undo.isEnabled then
        recordUndo m_graftChange operationName doc.undo currentSpritePalette
          from_.toNat to_.toNat
      else doc.undo
    { doc with undo := undo, spritePalette := newPalette }
  else doc

/-- Embedding of `PaletteEntryEditor::updateCurrentSpritePalette`. -/
def updateCurrentSpritePalette (operationName : String) (w : World) : World :=
  let w1 : World :=
    match w.document with
    | some doc =>
        if doc.lockFails then w.emit Event.ShowException
        else
          let doc1 := updateDocument w.editor.m_graftChange operationName w.palette doc
          { w with document := some doc1 }
    | none => w
  let w2 := w1.emit Event.InvalidatePaletteView
  let w3 : World :=
    if !w2.editor.timerRunning then
      { (w2.emit Event.TimerStart) with editor := { w2.editor with timerRunning := true } }
    else w2
  { w3 with editor := { w3.editor with m_redrawAll := false, m_graftChange := true } }

/-- Embedding of `PaletteEntryEditor::updateColorBar`. -/
def updateColorBar (w : World) : World := w.emit Event.InvalidateColorBar

/-- Embedding of `PaletteEntryEditor::setColor`: it only refreshes the sliders, the hex
entry and the entry label. -/
def setColor (color : Color) (w : World) : World := w.emit (Event.SetColor color)

/-- Embedding of `PaletteEntryEditor::onPalChange`. -/
def onPalChange (w : World) : World :=
  if !w.editor.m_selfPalChange then
    let index := w.paletteView.selectedEntry
    let w1 := if index ≥ 0 then setColor (Color.index index.toNat) w else w
    w1.emit Event.InvalidateFrame
  else w

/-- A message of the GUI: a timer message carries whether its timer is
`m_redrawTimer`. -/
inductive Message
  | timer (isRedrawTimer : Bool)
  | other
  deriving DecidableEq, Repr

/-- The signal `App::instance()->PaletteChange()`: the call is recorded and the
slot of this editor (`onPalChange`, connected in the constructor) runs. -/
def broadcastPaletteChange (w : World) : World := onPalChange (w.emit Event.PaletteChange)

/-- Embedding of `PaletteEntryEditor::onProcessMessage`, up to the call of
`Frame::onProcessMessage`. -/
def onProcessMessage (msg : Message) (w : World) : World :=
  match msg with
  | .timer true =>
      if w.editor.m_redrawAll then
        let w1 : World :=
          { (w.emit Event.TimerStop) with
            editor := { w.editor with
              m_redrawAll := false, m_graftChange := false, timerRunning := false } }
        let w2 : World := { w1 with editor := { w1.editor with m_selfPalChange := true } }
        let w3 := broadcastPaletteChange w2
        let w4 : World := { w3 with editor := { w3.editor with m_selfPalChange := false } }
        match w4.document with
        | some doc => if doc.lockFails then w4 else w4.emit Event.UpdateEditorsWithDocument
        | none => w4
      else
        { (w.emit Event.UpdateCurrentEditor) with
          editor := { w.editor with m_redrawAll := true } }
  | _ => w

/-- Embedding of `PaletteEntryEditor::onCloseFrame`. -/
def onCloseFrame (w : World) : World :=
  (w.emit Event.SaveWindowPos).emit (Event.SetPaletteEditorButtonState false)

/-- Embedding of `PaletteEntryEditor::onCopyColorsClick`. -/
def onCopyColorsClick (w : World) : World :=
  let clipboard := copyLoop w.paletteView.selectedEntries w.palette
  { w with editor := { w.editor with m_clipboardColors := clipboard } }

/-- Embedding of `PaletteEntryEditor::onPasteColorsClick`. -/
def onPasteColorsClick (w : World) : World :=
  let palette1 := pasteLoop w.paletteView.selectedEntries w.editor.m_clipboardColors w.palette
  let w1 : World := { w with palette := palette1 }
  onPalChange (updateColorBar (updateCurrentSpritePalette "Paste Colors" w1))

/-- Embedding of `PaletteEntryEditor::onColorSlidersChange`. -/
def onColorSlidersChange {D : Type} (M : ColorModel D) (color : Color) (channel : Channel)
    (w : World) : World :=
  let w1 := setColor color w
  let palette2 :=
    setPaletteEntryChannel M w1.paletteView.selectedEntries w1.paletteView.selectedRange
      color channel w1.palette
  let w2 : World := { w1 with palette := palette2 }
  updateColorBar (updateCurrentSpritePalette "Color Change" w2)

/-- Embedding of `PaletteEntryEditor::onColorHexEntryChange`. -/
def onColorHexEntryChange {D : Type} (M : ColorModel D) (color : Color) (w : World) : World :=
  let w0 : World := { w with editor := { w.editor with m_disableHexUpdate := true } }
  let w1 := setColor color w0
  let palette2 := setPaletteEntry M w1.paletteView.selectedEntries color w1.palette
  let w2 : World := { w1 with palette := palette2 }
  let w3 := updateColorBar (updateCurrentSpritePalette "Color Change" w2)
  { w3 with editor := { w3.editor with m_disableHexUpdate := false } }

/-! ## A concrete colour model for evaluation -/

/-- An integer stand-in for the colour model: `double` is read as a natural
number, and an HSV triple is converted component by component. -/
def sampleModel : ColorModel Nat where
  ofInt := fun x => x
  percent := fun x => x
  toRgb := fun hsv => ⟨hsv.hue % 256, hsv.saturation % 256, hsv.value % 256⟩
  ofRgb := fun rgb => ⟨rgb.red, rgb.green, rgb.blue⟩

/-- A small world for evaluation: a fresh editor, a three-entry system palette
that differs from the sprite palette at index 0, the first entry selected, an
active document with an enabled and empty undo history. -/
def sampleWorld : World :=
  { editor := PaletteEntryEditor.init
    palette := [1, 2, 3]
    paletteView := { selectedEntries := [true, false, false], selectedRange := some (0, 0),
                     selectedEntry := 0 }
    document := some { spritePalette := [0, 2, 3]
                       undo := ⟨true, "", Modification.DoesntModifyDocument, []⟩
                       lockFails := false }
    events := [] }

theorem rgba_eq_add (r g b a : Nat) (hr : r < 256) (hg : g < 256) (hb : b < 256)
    (ha : a < 256) : _rgba r g b a = r + 256 * g + 65536 * b + 16777216 * a := by
  unfold _rgba
  have h1 : r <<< 0 = r := by simp
  have h2 : g <<< 8 = 2 ^ 8 * g := by rw [Nat.shiftLeft_eq, Nat.mul_comm]
  have h3 : b <<< 16 = 2 ^ 16 * b := by rw [Nat.shiftLeft_eq, Nat.mul_comm]
  have h4 : a <<< 24 = 2 ^ 24 * a := by rw [Nat.shiftLeft_eq, Nat.mul_comm]
  rw [h1, h2, h3, h4]
  have e1 : r ||| 2 ^ 8 * g = 2 ^ 8 * g + r := by
    rw [Nat.or_comm]; exact (Nat.mul_add_lt_is_or (by omega) g).symm
  have e2 : 2 ^ 8 * g + r ||| 2 ^ 16 * b = 2 ^ 16 * b + (2 ^ 8 * g + r) := by
    rw [Nat.or_comm]; exact (Nat.mul_add_lt_is_or (by omega) b).symm
  have e3 : 2 ^ 16 * b + (2 ^ 8 * g + r) ||| 2 ^ 24 * a
      = 2 ^ 24 * a + (2 ^ 16 * b + (2 ^ 8 * g + r)) := by
    rw [Nat.or_comm]; exact (Nat.mul_add_lt_is_or (by omega) a).symm
  rw [e1, e2, e3]
  omega

theorem rgba_getr_lt (c : Nat) : _rgba_getr c < 256 := by
  unfold _rgba_getr
  have : (c >>> 0) &&& 0xff = (c >>> 0) % 2 ^ 8 := Nat.and_pow_two_sub_one_eq_mod _ 8
  rw [this]; omega

theorem rgba_getg_lt (c : Nat) : _rgba_getg c < 256 := by
  unfold _rgba_getg
  have : (c >>> 8) &&& 0xff = (c >>> 8) % 2 ^ 8 := Nat.and_pow_two_sub_one_eq_mod _ 8
  rw [this]; omega

theorem rgba_getb_lt (c : Nat) : _rgba_getb c < 256 := by
  unfold _rgba_getb
  have : (c >>> 16) &&& 0xff = (c >>> 16) % 2 ^ 8 := Nat.and_pow_two_sub_one_eq_mod _ 8
  rw [this]; omega

theorem rgba_components (r g b a : Nat) (hr : r < 256) (hg : g < 256) (hb : b < 256)
    (ha : a < 256) :
    _rgba_getr (_rgba r g b a) = r ∧ _rgba_getg (_rgba r g b a) = g ∧
      _rgba_getb (_rgba r g b a) = b ∧ _rgba_geta (_rgba r g b a) = a := by
  rw [rgba_eq_add r g b a hr hg hb ha]
  unfold _rgba_getr _rgba_getg _rgba_getb _rgba_geta
  have m : ∀ x : Nat, x &&& 0xff = x % 2 ^ 8 := fun x => Nat.and_pow_two_sub_one_eq_mod x 8
  simp only [m, Nat.shiftRight_eq_div_pow]
  refine ⟨?_, ?_, ?_, ?_⟩ <;> omega

/-! ## The selection loop, entry by entry -/

theorem foldl_selected_getElem? (entries : SelectedEntries) (g : Nat → Nat → Nat)
    (palette : Palette) (n p : Nat) :
    ((List.range n).foldl
      (fun pal c =>
        if isSelected entries c then Palette.setEntry pal c (g c (Palette.getEntry pal c))
        else pal) palette)[p]?
      = if isSelected entries p = true ∧ p < n then (palette[p]?).map (g p) else palette[p]? := by
  induction n generalizing p with
  | zero => simp
  | succ n ih =>
    rw [List.range_succ, List.foldl_append]
    simp only [List.foldl_cons, List.foldl_nil]
    generalize (List.range n).foldl _ palette = acc at ih ⊢
    have hn : acc[n]? = palette[n]? := by rw [ih n]; simp
    by_cases hs : isSelected entries n = true
    · rw [if_pos hs]
      unfold Palette.setEntry Palette.getEntry
      rw [List.getElem?_set']
      by_cases hp : n = p
      · subst hp
        rw [if_pos rfl, if_pos ⟨hs, Nat.lt_succ_self _⟩]
        simp only [List.getD_eq_getElem?_getD, hn]
        cases palette[n]? <;> simp
      · rw [if_neg hp, ih p]
        have : p < n + 1 ↔ p < n := by omega
        simp only [this]
    · rw [if_neg hs, ih p]
      by_cases hp : p = n
      · subst hp; simp [hs]
      · have : p < n + 1 ↔ p < n := by omega
        simp only [this]

theorem forSelected_getElem? (entries : SelectedEntries) (g : Nat → Nat → Nat)
    (palette : Palette) (p : Nat) :
    (forSelected entries
      (fun c pal => Palette.setEntry pal c (g c (Palette.getEntry pal c))) palette)[p]?
      = if isSelected entries p = true then (palette[p]?).map (g p) else palette[p]? := by
  unfold forSelected Palette.size
  rw [foldl_selected_getElem?]
  by_cases hp : p < palette.length
  · simp [hp]
  · have : palette[p]? = none := by simp; omega
    simp [this]

theorem setPaletteEntryChannel_getElem? (D : Type) (M : ColorModel D)
    (entries : SelectedEntries) (begSel endSel : Nat) (color : Color) (channel : Channel)
    (palette : Palette) (p : Nat) :
    (setPaletteEntryChannel M entries (some (begSel, endSel)) color channel palette)[p]?
      = if isSelected entries p = true then
          (palette[p]?).map (fun src =>
            _rgba (channelBody M color channel begSel endSel palette src).red
              (channelBody M color channel begSel endSel palette src).green
              (channelBody M color channel begSel endSel palette src).blue 255)
        else palette[p]? := by
  have key : ∀ (cur : Palette) (src : Nat),
      channelBody M color channel begSel endSel cur src
        = channelBody M color channel begSel endSel palette src := by
    intro cur src
    cases color with
    | rgb r g b => simp [channelBody, Color.getType, Color.getRed, Color.getGreen,
        Color.getBlue, Color.toRgb]
    | hsv h s v => simp [channelBody, Color.getType]
    | index i => simp [channelBody, Color.getType]
  unfold setPaletteEntryChannel
  simp only [key]
  exact forSelected_getElem? entries
    (fun _ src => _rgba (channelBody M color channel begSel endSel palette src).red
      (channelBody M color channel begSel endSel palette src).green
      (channelBody M color channel begSel endSel palette src).blue 255) palette p

theorem setPaletteEntry_getElem? (D : Type) (M : ColorModel D)
    (entries : SelectedEntries) (color : Color) (palette : Palette) (p : Nat) :
    (setPaletteEntry M entries color palette)[p]?
      = if isSelected entries p = true then
          (palette[p]?).map (fun _ =>
            _rgba (color.getRed M palette) (color.getGreen M palette)
              (color.getBlue M palette) 255)
        else palette[p]? := by
  unfold setPaletteEntry
  exact forSelected_getElem? entries
    (fun _ _ => _rgba (color.getRed M palette) (color.getGreen M palette)
      (color.getBlue M palette) 255) palette p

theorem entryRgb_of_getElem? (pal : Palette) (p v : Nat) (h : pal[p]? = some v) :
    entryRgb pal p = ⟨_rgba_getr v, _rgba_getg v, _rgba_getb v⟩ := by
  unfold entryRgb Palette.getEntry
  simp [List.getD_eq_getElem?_getD, h]

/-! ## Selection-scoped mutation: the claims -/

/-- C1: when exactly one index `i` is selected and the selected range is
`(i, i)`, `setPaletteEntryChannel` with an RGB- or HSV-typed candidate stores
at `i` the candidate's RGB value packed with alpha 255, whatever the channel
tag, and changes no other entry; `setPaletteEntry` does the same. -/
theorem single_entry_overwrite {D : Type} (M : ColorModel D) (entries : SelectedEntries)
    (palette : Palette) (color : Color) (channel : Channel) (i : Nat)
    (hsel : ∀ c, isSelected entries c = true ↔ c = i)
    (htype : color.getType = ColorType.RgbType ∨ color.getType = ColorType.HsvType) :
    setPaletteEntryChannel M entries (some (i, i)) color channel palette
        = palette.setEntry i
            (_rgba (color.getRed M palette) (color.getGreen M palette)
              (color.getBlue M palette) 255)
      ∧ setPaletteEntry M entries color palette
        = palette.setEntry i
            (_rgba (color.getRed M palette) (color.getGreen M palette)
              (color.getBlue M palette) 255)
      ∧ ∀ p, p ≠ i →
          (setPaletteEntryChannel M entries (some (i, i)) color channel palette)[p]?
              = palette[p]?
            ∧ (setPaletteEntry M entries color palette)[p]? = palette[p]? := by
  have hbody : ∀ src, channelBody M color channel i i palette src
      = ⟨color.getRed M palette, color.getGreen M palette, color.getBlue M palette⟩ := by
    intro src
    cases color with
    | rgb r g b => simp [channelBody, Color.getType]
    | hsv h s v =>
      simp [channelBody, Color.getType, Color.getRed, Color.getGreen, Color.getBlue,
        Color.toRgb, Color.getHue, Color.getSaturation, Color.getValue]
    | index k => simp [Color.getType] at htype
  have hne : ∀ p, p ≠ i → isSelected entries p = false := by
    intro p hp
    cases h : isSelected entries p with
    | false => rfl
    | true => exact absurd ((hsel p).1 h) hp
  have hi : isSelected entries i = true := (hsel i).2 rfl
  have e1 : ∀ p : Nat, (setPaletteEntryChannel M entries (some (i, i)) color channel palette)[p]?
      = (palette.setEntry i (_rgba (color.getRed M palette) (color.getGreen M palette)
          (color.getBlue M palette) 255))[p]? := by
    intro p
    rw [setPaletteEntryChannel_getElem?]
    unfold Palette.setEntry
    rw [List.getElem?_set']
    by_cases hp : p = i
    · subst hp; simp [hi, hbody]; rfl
    · have hp' : ¬ i = p := fun h => hp h.symm
      simp [hne p hp, hp']
  have e2 : ∀ p : Nat, (setPaletteEntry M entries color palette)[p]?
      = (palette.setEntry i (_rgba (color.getRed M palette) (color.getGreen M palette)
          (color.getBlue M palette) 255))[p]? := by
    intro p
    rw [setPaletteEntry_getElem?]
    unfold Palette.setEntry
    rw [List.getElem?_set']
    by_cases hp : p = i
    · subst hp; simp [hi]; rfl
    · have hp' : ¬ i = p := fun h => hp h.symm
      simp [hne p hp, hp']
  refine ⟨List.ext_getElem? e1, List.ext_getElem? e2, ?_⟩
  intro p hp
  rw [setPaletteEntryChannel_getElem?, setPaletteEntry_getElem?]
  simp [hne p hp]

/-- C2: with no selected index both mutators leave the palette as it is,
whatever `getSelectedRange` answered; and `setPaletteEntryChannel` leaves it as
it is whenever `getSelectedRange` fails. -/
theorem empty_selection_noop {D : Type} (M : ColorModel D) (entries : SelectedEntries)
    (palette : Palette) (color : Color) (channel : Channel)
    (hnone : ∀ c, isSelected entries c = false) :
    (∀ range, setPaletteEntryChannel M entries range color channel palette = palette)
      ∧ setPaletteEntry M entries color palette = palette
      ∧ ∀ entries1 : SelectedEntries,
          setPaletteEntryChannel M entries1 none color channel palette = palette := by
  refine ⟨?_, ?_, fun _ => rfl⟩
  · intro range
    cases range with
    | none => rfl
    | some r =>
      obtain ⟨b, e⟩ := r
      apply List.ext_getElem?
      intro p
      rw [setPaletteEntryChannel_getElem?]
      simp [hnone p]
  · apply List.ext_getElem?
    intro p
    rw [setPaletteEntry_getElem?]
    simp [hnone p]

/-- C4: over a span of more than one entry and with an RGB-typed candidate
(components in `0..255`), channel `Red` sets red and green of every selected
entry to the candidate's and keeps its blue; `Green` changes green only and
`Blue` changes blue only. -/
theorem rgb_channel_red_runs_into_green {D : Type} (M : ColorModel D)
    (entries : SelectedEntries) (begSel endSel : Nat) (cr cg cb : Nat) (palette : Palette)
    (p : Nat) (hspan : begSel < endSel) (hr : cr < 256) (hg : cg < 256) (hb : cb < 256)
    (hp : p < palette.length) (hsel : isSelected entries p = true) :
    entryRgb (setPaletteEntryChannel M entries (some (begSel, endSel)) (Color.rgb cr cg cb)
        Channel.Red palette) p = ⟨cr, cg, (entryRgb palette p).blue⟩
      ∧ entryRgb (setPaletteEntryChannel M entries (some (begSel, endSel)) (Color.rgb cr cg cb)
        Channel.Green palette) p = ⟨(entryRgb palette p).red, cg, (entryRgb palette p).blue⟩
      ∧ entryRgb (setPaletteEntryChannel M entries (some (begSel, endSel)) (Color.rgb cr cg cb)
        Channel.Blue palette) p = ⟨(entryRgb palette p).red, (entryRgb palette p).green, cb⟩ := by
  have hne : ¬ begSel = endSel := by omega
  obtain ⟨v, hv⟩ : ∃ v, palette[p]? = some v := ⟨palette[p], by simp [hp]⟩
  have hold := entryRgb_of_getElem? palette p v hv
  have hnew : ∀ ch, (setPaletteEntryChannel M entries (some (begSel, endSel))
      (Color.rgb cr cg cb) ch palette)[p]?
        = some (_rgba (channelBody M (Color.rgb cr cg cb) ch begSel endSel palette v).red
            (channelBody M (Color.rgb cr cg cb) ch begSel endSel palette v).green
            (channelBody M (Color.rgb cr cg cb) ch begSel endSel palette v).blue 255) := by
    intro ch
    rw [setPaletteEntryChannel_getElem?]
    simp [hsel, hv]
  have hvr := rgba_getr_lt v
  have hvg := rgba_getg_lt v
  have hvb := rgba_getb_lt v
  rw [hold]
  refine ⟨?_, ?_, ?_⟩
  · rw [entryRgb_of_getElem? _ p _ (hnew Channel.Red)]
    simp only [channelBody, Color.getType, if_neg hne, rgbChannelSwitch, Color.getRed,
      Color.getGreen, Color.getBlue, Color.toRgb]
    obtain ⟨h1, h2, h3, -⟩ := rgba_components cr cg (_rgba_getb v) 255 hr hg hvb (by omega)
    rw [h1, h2, h3]
  · rw [entryRgb_of_getElem? _ p _ (hnew Channel.Green)]
    simp only [channelBody, Color.getType, if_neg hne, rgbChannelSwitch, Color.getRed,
      Color.getGreen, Color.getBlue, Color.toRgb]
    obtain ⟨h1, h2, h3, -⟩ :=
      rgba_components (_rgba_getr v) cg (_rgba_getb v) 255 hvr hg hvb (by omega)
    rw [h1, h2, h3]
  · rw [entryRgb_of_getElem? _ p _ (hnew Channel.Blue)]
    simp only [channelBody, Color.getType, if_neg hne, rgbChannelSwitch, Color.getRed,
      Color.getGreen, Color.getBlue, Color.toRgb]
    obtain ⟨h1, h2, h3, -⟩ :=
      rgba_components (_rgba_getr v) (_rgba_getg v) cb 255 hvr hvg hb (by omega)
    rw [h1, h2, h3]

theorem isSelected_middle (c : Nat) : isSelected [false, true, false] c = true ↔ c = 1 := by
  match c with
  | 0 => decide
  | 1 => decide
  | 2 => decide
  | n + 3 => simp [isSelected]

theorem isSelected_none (c : Nat) : isSelected [false, false] c = false := by
  match c with
  | 0 => decide
  | 1 => decide
  | n + 2 => simp [isSelected]

/-- Witness of C1: an HSV-typed candidate, entry 1 of three selected. -/
theorem single_entry_overwrite_witness :
    (∀ c, isSelected [false, true, false] c = true ↔ c = 1)
      ∧ setPaletteEntryChannel sampleModel [false, true, false] (some (1, 1))
          (Color.hsv 10 20 30) Channel.Hue [5, 6, 7] = [5, _rgba 10 20 30 255, 7]
      ∧ setPaletteEntry sampleModel [false, true, false] (Color.hsv 10 20 30) [5, 6, 7]
          = [5, _rgba 10 20 30 255, 7] :=
  ⟨isSelected_middle,
    (single_entry_overwrite sampleModel [false, true, false] [5, 6, 7] (Color.hsv 10 20 30)
      Channel.Hue 1 isSelected_middle (Or.inr rfl)).1,
    (single_entry_overwrite sampleModel [false, true, false] [5, 6, 7] (Color.hsv 10 20 30)
      Channel.Hue 1 isSelected_middle (Or.inr rfl)).2.1⟩

/-- Witness of C2: a two-entry palette with nothing selected. -/
theorem empty_selection_noop_witness :
    (∀ c, isSelected [false, false] c = false)
      ∧ setPaletteEntryChannel sampleModel [false, false] (some (0, 1)) (Color.rgb 1 2 3)
          Channel.Red [5, 6] = [5, 6]
      ∧ setPaletteEntry sampleModel [false, false] (Color.rgb 1 2 3) [5, 6] = [5, 6] :=
  ⟨isSelected_none,
    (empty_selection_noop sampleModel [false, false] [5, 6] (Color.rgb 1 2 3) Channel.Red
      isSelected_none).1 (some (0, 1)),
    (empty_selection_noop sampleModel [false, false] [5, 6] (Color.rgb 1 2 3) Channel.Red
      isSelected_none).2.1⟩

/-- C3: evaluation of the code where the claim fails.  Two entries are
selected, the candidate is the RGB triple `(1, 2, 3)` and the channel tag is
`Red`: the green byte of entry 0 goes from 20 to 2 and that of entry 1 from 50
to 2, although only red is named. -/
theorem channel_red_changes_green_too :
    entryRgb [_rgba 10 20 30 255, _rgba 40 50 60 255] 0 = ⟨10, 20, 30⟩
      ∧ entryRgb [_rgba 10 20 30 255, _rgba 40 50 60 255] 1 = ⟨40, 50, 60⟩
      ∧ entryRgb (setPaletteEntryChannel sampleModel [true, true] (some (0, 1))
          (Color.rgb 1 2 3) Channel.Red [_rgba 10 20 30 255, _rgba 40 50 60 255]) 0
          = ⟨1, 2, 30⟩
      ∧ entryRgb (setPaletteEntryChannel sampleModel [true, true] (some (0, 1))
          (Color.rgb 1 2 3) Channel.Red [_rgba 10 20 30 255, _rgba 40 50 60 255]) 1
          = ⟨1, 2, 60⟩ := by
  decide

/-- Witness of C4: two selected entries, candidate `(1, 2, 3)`. -/
theorem rgb_channel_red_runs_into_green_witness :
    entryRgb (setPaletteEntryChannel sampleModel [true, true] (some (0, 1)) (Color.rgb 1 2 3)
        Channel.Red [_rgba 10 20 30 255, _rgba 40 50 60 255]) 0
        = ⟨1, 2, (entryRgb [_rgba 10 20 30 255, _rgba 40 50 60 255] 0).blue⟩ :=
  (rgb_channel_red_runs_into_green sampleModel [true, true] 0 1 1 2 3
    [_rgba 10 20 30 255, _rgba 40 50 60 255] 0 (by decide) (by decide) (by decide) (by decide)
    (by decide) (by decide)).1

/-! ## Clipboard: copy -/

theorem foldl_push_selected (q : Nat → Bool) (f : Nat → Nat) (l : List Nat) (init : List Nat) :
    l.foldl (fun clip i => if q i then clip ++ [f i] else clip) init
      = init ++ (l.filter q).map f := by
  induction l generalizing init with
  | nil => simp
  | cons a l ih =>
    rw [List.foldl_cons, ih]
    by_cases h : q a = true
    · simp [h]
    · simp [h]

theorem copyLoop_eq (selectedEntries : SelectedEntries) (palette : Palette) :
    copyLoop selectedEntries palette
      = (selectedIndices selectedEntries).map (fun i => palette.getEntry i) := by
  unfold copyLoop selectedIndices
  rw [foldl_push_selected (fun i => isSelected selectedEntries i) (fun i => palette.getEntry i)]
  simp

theorem length_filter_range (selectedEntries : SelectedEntries) (n : Nat) :
    ((List.range n).filter (fun i => isSelected selectedEntries i)).length
      = selectedBefore selectedEntries n := by
  induction n with
  | zero => rfl
  | succ n ih =>
    rw [List.range_succ, List.filter_append, List.length_append, ih]
    by_cases h : isSelected selectedEntries n = true
    · simp [selectedBefore, h]
    · simp [selectedBefore, h]

theorem length_selectedIndices (selectedEntries : SelectedEntries) :
    (selectedIndices selectedEntries).length
      = selectedBefore selectedEntries selectedEntries.length :=
  length_filter_range selectedEntries selectedEntries.length

theorem countSelected_eq (selectedEntries : SelectedEntries) :
    countSelected selectedEntries = selectedBefore selectedEntries selectedEntries.length := by
  unfold countSelected
  generalize selectedEntries.length = n
  induction n with
  | zero => rfl
  | succ n ih =>
    rw [List.range_succ, List.foldl_append, ih]
    by_cases h : isSelected selectedEntries n = true
    · simp [selectedBefore, h]
    · simp [selectedBefore, h]

theorem selectedBefore_congr (a b : SelectedEntries) (t : Nat)
    (h : ∀ p, p < t → isSelected a p = isSelected b p) :
    selectedBefore a t = selectedBefore b t := by
  induction t with
  | zero => rfl
  | succ t ih =>
    simp only [selectedBefore]
    rw [ih (fun p hp => h p (by omega)), h t (by omega)]

/-- The number of selected indices is the number of `true` in the mask. -/
theorem selectedBefore_length_eq_count (sel : SelectedEntries) :
    selectedBefore sel sel.length = sel.count true := by
  induction sel using List.reverseRecOn with
  | nil => rfl
  | append_singleton l b ih =>
    have hlen : (l ++ [b]).length = l.length + 1 := by simp
    rw [hlen]
    simp only [selectedBefore]
    have h1 : selectedBefore (l ++ [b]) l.length = selectedBefore l l.length := by
      apply selectedBefore_congr
      intro p hp
      simp [isSelected, List.getD_eq_getElem?_getD, List.getElem?_append_left hp]
    have h2 : isSelected (l ++ [b]) l.length = b := by
      simp [isSelected, List.getD_eq_getElem?_getD]
    rw [h1, h2, ih, List.count_append]
    cases b <;> simp

/-- C5: after `onCopyColorsClick` the clipboard is the list of the palette
values at the selected indices in ascending order, whatever it held before;
its length is the number of selected indices, and the palette (like everything
but the clipboard) is as before. -/
theorem copy_replaces_clipboard (w : World) :
    (onCopyColorsClick w).editor.m_clipboardColors
        = (selectedIndices w.paletteView.selectedEntries).map (fun i => w.palette.getEntry i)
      ∧ (onCopyColorsClick w).editor.m_clipboardColors.length
        = (selectedIndices w.paletteView.selectedEntries).length
      ∧ (onCopyColorsClick w).editor.m_clipboardColors.length
        = w.paletteView.selectedEntries.count true
      ∧ (onCopyColorsClick w).palette = w.palette
      ∧ (onCopyColorsClick w).document = w.document
      ∧ (onCopyColorsClick w).paletteView = w.paletteView := by
  refine ⟨?_, ?_, ?_, rfl, rfl, rfl⟩
  · simp [onCopyColorsClick, copyLoop_eq]
  · simp [onCopyColorsClick, copyLoop_eq]
  · rw [← selectedBefore_length_eq_count, ← length_selectedIndices]
    simp [onCopyColorsClick, copyLoop_eq]

/-! ## Clipboard: paste -/

theorem selectedBefore_mono (sel : SelectedEntries) (a b : Nat) (h : a ≤ b) :
    selectedBefore sel a ≤ selectedBefore sel b := by
  induction b with
  | zero =>
    have : a = 0 := by omega
    subst this; exact Nat.le_refl _
  | succ b ih =>
    by_cases hab : a = b + 1
    · subst hab; exact Nat.le_refl _
    · have := ih (by omega)
      simp only [selectedBefore]
      omega

theorem selectedBefore_const (sel : SelectedEntries) (E : Nat)
    (hE : ∀ p, E ≤ p → isSelected sel p = false) (t : Nat) (ht : E ≤ t) :
    selectedBefore sel t = selectedBefore sel E := by
  induction t with
  | zero =>
    have : E = 0 := by omega
    subst this; rfl
  | succ t ih =>
    by_cases hEt : E = t + 1
    · subst hEt; rfl
    · have h1 := ih (by omega)
      have h2 := hE t (by omega)
      simp [selectedBefore, h2, h1]

theorem isSelected_lt_length (sel : SelectedEntries) (p : Nat) (h : isSelected sel p = true) :
    p < sel.length := by
  by_contra hp
  have : sel[p]? = none := by simp; omega
  simp [isSelected, List.getD_eq_getElem?_getD, this] at h

/-- The state of the paste loop after its first `t` turns. -/
theorem paste_invariant (sel : SelectedEntries) (clip : List Nat) (pal : Palette) (E : Nat)
    (hE1 : ∀ p, E ≤ p → isSelected sel p = false)
    (hE2 : E = 0 ∨ isSelected sel (E - 1) = true) (t : Nat) :
    ((List.range t).foldl (pasteStep sel clip (countSelected sel)) (0, pal)).1
        = min (selectedBefore sel t + (t - E)) clip.length
      ∧ ∀ p : Nat,
        ((List.range t).foldl (pasteStep sel clip (countSelected sel)) (0, pal)).2[p]?
          = if p < t ∧ (isSelected sel p = true ∨ E ≤ p)
                ∧ selectedBefore sel p + (p - E) < clip.length then
              (pal[p]?).map (fun _ => clip.getD (selectedBefore sel p + (p - E)) 0)
            else pal[p]? := by
  have hEn : E ≤ sel.length := by
    rcases hE2 with h | h
    · omega
    · have := isSelected_lt_length sel _ h
      omega
  have hcnt : countSelected sel = selectedBefore sel E := by
    rw [countSelected_eq]
    exact selectedBefore_const sel E hE1 _ hEn
  induction t with
  | zero => simp [selectedBefore]
  | succ t ih =>
    rw [List.range_succ, List.foldl_append]
    simp only [List.foldl_cons, List.foldl_nil]
    obtain ⟨ihj, ihp⟩ := ih
    generalize (List.range t).foldl (pasteStep sel clip (countSelected sel)) (0, pal) = st
      at ihj ihp ⊢
    obtain ⟨j, cur⟩ := st
    simp only at ihj ihp
    have hcur_t : cur[t]? = pal[t]? := by rw [ihp t]; simp
    unfold pasteStep
    simp only
    by_cases hjm : j < clip.length
    · rw [if_pos hjm]
      have hj : j = selectedBefore sel t + (t - E) := by omega
      by_cases hs : isSelected sel t = true
      · -- a selected index: it lies below `E`
        have htE : t < E := by
          by_contra hcon
          have := hE1 t (by omega)
          rw [this] at hs
          exact absurd hs (by decide)
        simp only [hs, Bool.true_or, if_true]
        refine ⟨?_, ?_⟩
        · simp only [selectedBefore, hs, if_true]
          omega
        · intro p
          unfold Palette.setEntry
          rw [List.getElem?_set']
          by_cases hp : t = p
          · subst hp
            have hlt : selectedBefore sel t + (t - E) < clip.length := by omega
            rw [if_pos rfl, if_pos ⟨Nat.lt_succ_self _, Or.inl hs, hlt⟩, hcur_t, hj]
            rfl
          · rw [if_neg hp, ihp p]
            have : p < t + 1 ↔ p < t := by omega
            simp only [this]
      · by_cases htE : E ≤ t
        · -- past the selected indices: every index takes the next value
          have hc : selectedBefore sel t = selectedBefore sel E :=
            selectedBefore_const sel E hE1 t htE
          have hge : j ≥ countSelected sel := by omega
          have hd : decide (j ≥ countSelected sel) = true := decide_eq_true hge
          simp only [hd, Bool.or_true, if_true]
          refine ⟨?_, ?_⟩
          · simp only [selectedBefore, hs]
            simp only [Bool.false_eq_true, if_false]
            omega
          · intro p
            unfold Palette.setEntry
            rw [List.getElem?_set']
            by_cases hp : t = p
            · subst hp
              have hlt : selectedBefore sel t + (t - E) < clip.length := by omega
              rw [if_pos rfl, if_pos ⟨Nat.lt_succ_self _, Or.inr htE, hlt⟩, hcur_t, hj]
              rfl
            · rw [if_neg hp, ihp p]
              have : p < t + 1 ↔ p < t := by omega
              simp only [this]
        · -- an unselected index below `E`: skipped
          have hE0 : E ≠ 0 := by omega
          have hlast : isSelected sel (E - 1) = true := by
            rcases hE2 with h | h
            · exact absurd h hE0
            · exact h
          have hne : t ≠ E - 1 := by
            intro h
            rw [h] at hs
            exact hs hlast
          have h1 : selectedBefore sel (t + 1) ≤ selectedBefore sel (E - 1) :=
            selectedBefore_mono sel _ _ (by omega)
          have h2 : selectedBefore sel E = selectedBefore sel (E - 1) + 1 := by
            have : E = (E - 1) + 1 := by omega
            conv_lhs => rw [this]
            simp [selectedBefore, hlast]
          have h3 : selectedBefore sel (t + 1) = selectedBefore sel t := by
            simp [selectedBefore, hs]
          have hlt : ¬ j ≥ countSelected sel := by omega
          have hd : decide (j ≥ countSelected sel) = false := decide_eq_false hlt
          have hs' : isSelected sel t = false := by
            cases h : isSelected sel t with
            | false => rfl
            | true => exact absurd h hs
          simp only [hs', hd, Bool.or_false, Bool.false_eq_true, if_false]
          refine ⟨?_, ?_⟩
          · omega
          · intro p
            rw [ihp p]
            by_cases hp : p = t
            · subst hp
              have : ¬ (isSelected sel p = true ∨ E ≤ p) := by
                intro h
                rcases h with h | h
                · exact hs h
                · exact htE h
              simp [this]
            · have : p < t + 1 ↔ p < t := by omega
              simp only [this]
    · rw [if_neg hjm]
      have hm : selectedBefore sel t + (t - E) ≥ clip.length := by omega
      have hmono : selectedBefore sel t ≤ selectedBefore sel (t + 1) :=
        selectedBefore_mono sel _ _ (by omega)
      refine ⟨?_, ?_⟩
      · simp only
        omega
      · intro p
        simp only
        rw [ihp p]
        by_cases hp : p = t
        · subst hp
          have : ¬ (selectedBefore sel p + (p - E) < clip.length) := by omega
          simp [this]
        · have : p < t + 1 ↔ p < t := by omega
          simp only [this]

theorem selectedBefore_lt (sel : SelectedEntries) (p n : Nat)
    (hs : isSelected sel p = true) (hp : p < n) :
    selectedBefore sel p < selectedBefore sel n := by
  have h1 : selectedBefore sel (p + 1) = selectedBefore sel p + 1 := by
    simp [selectedBefore, hs]
  have h2 := selectedBefore_mono sel (p + 1) n (by omega)
  omega

/-- The entry `t` of the list of selected indices is `p` exactly when `p` is
selected and has `t` selected indices below it. -/
theorem filter_range_getElem? (sel : SelectedEntries) (n t p : Nat) :
    ((List.range n).filter (fun i => isSelected sel i))[t]? = some p
      ↔ (isSelected sel p = true ∧ p < n ∧ selectedBefore sel p = t) := by
  induction n with
  | zero => simp
  | succ n ih =>
    rw [List.range_succ, List.filter_append, List.getElem?_append, length_filter_range]
    by_cases ht : t < selectedBefore sel n
    · rw [if_pos ht, ih]
      constructor
      · rintro ⟨h1, h2, h3⟩
        exact ⟨h1, by omega, h3⟩
      · rintro ⟨h1, h2, h3⟩
        refine ⟨h1, ?_, h3⟩
        by_contra hcon
        have : p = n := by omega
        subst this
        omega
    · rw [if_neg ht]
      by_cases hs : isSelected sel n = true
      · have hf : List.filter (fun i => isSelected sel i) [n] = [n] := by simp [hs]
        rw [hf]
        constructor
        · intro h
          rw [List.getElem?_eq_some_iff] at h
          obtain ⟨hlt, hv⟩ := h
          simp only [List.length_singleton] at hlt
          have h0 : t - selectedBefore sel n = 0 := by omega
          simp only [h0, List.getElem_cons_zero] at hv
          subst hv
          exact ⟨hs, by omega, by omega⟩
        · rintro ⟨h1, h2, h3⟩
          have hpn : p = n := by
            by_contra hcon
            have := selectedBefore_lt sel p n h1 (by omega)
            omega
          subst hpn
          have h0 : t - selectedBefore sel p = 0 := by omega
          rw [h0]
          rfl
      · have hf : List.filter (fun i => isSelected sel i) [n] = [] := by simp [hs]
        rw [hf]
        constructor
        · intro h
          simp at h
        · rintro ⟨h1, h2, h3⟩
          exfalso
          have hpn : p ≠ n := by
            intro h
            subst h
            exact hs h1
          have := selectedBefore_lt sel p n h1 (by omega)
          omega

theorem selectedIndices_getElem? (sel : SelectedEntries) (t p : Nat) :
    (selectedIndices sel)[t]? = some p
      ↔ (isSelected sel p = true ∧ selectedBefore sel p = t) := by
  unfold selectedIndices
  rw [filter_range_getElem?]
  constructor
  · rintro ⟨h1, _, h3⟩
    exact ⟨h1, h3⟩
  · rintro ⟨h1, h3⟩
    exact ⟨h1, isSelected_lt_length sel p h1, h3⟩

theorem selectionEnd_clear (sel : SelectedEntries) (t p : Nat)
    (h1 : selectionEnd sel t ≤ p) (h2 : p < t) : isSelected sel p = false := by
  induction t with
  | zero => omega
  | succ t ih =>
    by_cases hs : isSelected sel t = true
    · simp only [selectionEnd, hs, if_true] at h1
      omega
    · simp only [selectionEnd, hs] at h1
      by_cases hp : p = t
      · subst hp
        cases h : isSelected sel p with
        | false => rfl
        | true => exact absurd h hs
      · exact ih (by simpa using h1) (by omega)

theorem selectionEnd_last (sel : SelectedEntries) (t : Nat) :
    selectionEnd sel t = 0 ∨ isSelected sel (selectionEnd sel t - 1) = true := by
  induction t with
  | zero => left; rfl
  | succ t ih =>
    by_cases hs : isSelected sel t = true
    · right
      simp [selectionEnd, hs]
    · simpa [selectionEnd, hs] using ih

theorem selectionEnd_le (sel : SelectedEntries) (t : Nat) : selectionEnd sel t ≤ t := by
  induction t with
  | zero => exact Nat.le_refl _
  | succ t ih =>
    by_cases hs : isSelected sel t = true
    · simp [selectionEnd, hs]
    · simp only [selectionEnd, hs]
      simp only [Bool.false_eq_true, if_false]
      omega

theorem isSelected_of_length_le (sel : SelectedEntries) (p : Nat) (h : sel.length ≤ p) :
    isSelected sel p = false := by
  cases hs : isSelected sel p with
  | false => rfl
  | true =>
    have := isSelected_lt_length sel p hs
    omega

/-- Entry by entry, what the paste loop leaves; `E` is one past the last
selected index (0 when nothing is selected). -/
theorem pasteLoop_getElem? (sel : SelectedEntries) (clip : List Nat) (pal : Palette) (E : Nat)
    (hE1 : ∀ p, E ≤ p → isSelected sel p = false)
    (hE2 : E = 0 ∨ isSelected sel (E - 1) = true) (p : Nat) :
    (pasteLoop sel clip pal)[p]?
      = if (isSelected sel p = true ∨ (E ≤ p ∧ p < sel.length))
            ∧ selectedBefore sel p + (p - E) < clip.length then
          (pal[p]?).map (fun _ => clip.getD (selectedBefore sel p + (p - E)) 0)
        else pal[p]? := by
  unfold pasteLoop
  rw [(paste_invariant sel clip pal E hE1 hE2 sel.length).2 p]
  by_cases hs : isSelected sel p = true
  · have := isSelected_lt_length sel p hs
    simp [hs, this]
  · by_cases hp : p < sel.length
    · simp [hs, hp]
    · simp [hs, hp]

theorem pasteLoop_length (sel : SelectedEntries) (clip : List Nat) (pal : Palette) :
    (pasteLoop sel clip pal).length = pal.length := by
  unfold pasteLoop
  generalize sel.length = n
  induction n with
  | zero => rfl
  | succ n ih =>
    rw [List.range_succ, List.foldl_append]
    simp only [List.foldl_cons, List.foldl_nil]
    generalize (List.range n).foldl (pasteStep sel clip (countSelected sel)) (0, pal) = st
      at ih ⊢
    unfold pasteStep
    split
    · split
      · simp [Palette.setEntry, ih]
      · exact ih
    · exact ih

/-- A selection with at least one selected index has a last selected index. -/
theorem exists_last_selected (sel : SelectedEntries)
    (hk : 1 ≤ (selectedIndices sel).length) :
    ∃ last, isSelected sel last = true ∧ ∀ p, last < p → isSelected sel p = false := by
  have hE1 : ∀ p, selectionEnd sel sel.length ≤ p → isSelected sel p = false := by
    intro p hp
    by_cases hpn : p < sel.length
    · exact selectionEnd_clear sel _ p hp hpn
    · exact isSelected_of_length_le sel p (by omega)
  rcases selectionEnd_last sel sel.length with h0 | hlast
  · exfalso
    rw [h0] at hE1
    have := selectedBefore_const sel 0 hE1 sel.length (Nat.zero_le _)
    rw [length_selectedIndices, this] at hk
    simp [selectedBefore] at hk
  · refine ⟨selectionEnd sel sel.length - 1, hlast, ?_⟩
    intro p hp
    exact hE1 p (by omega)

theorem updateCurrentSpritePalette_palette (operationName : String) (w : World) :
    (updateCurrentSpritePalette operationName w).palette = w.palette
      ∧ (updateCurrentSpritePalette operationName w).editor.m_clipboardColors
        = w.editor.m_clipboardColors
      ∧ (updateCurrentSpritePalette operationName w).paletteView = w.paletteView := by
  cases hd : w.document with
  | none =>
    cases ht : w.editor.timerRunning <;>
      simp [updateCurrentSpritePalette, World.emit, hd, ht]
  | some doc =>
    cases hl : doc.lockFails <;> cases ht : w.editor.timerRunning <;>
      simp [updateCurrentSpritePalette, World.emit, hd, hl, ht]

theorem onPalChange_palette (w : World) :
    (onPalChange w).palette = w.palette
      ∧ (onPalChange w).editor = w.editor := by
  unfold onPalChange
  cases hs : w.editor.m_selfPalChange
  · by_cases hi : w.paletteView.selectedEntry ≥ 0
    · simp [World.emit, setColor, hi]
    · simp [World.emit, setColor, hi]
  · simp

/-- The palette `onPasteColorsClick` leaves is the one its paste loop built,
and the clipboard is as before. -/
theorem onPasteColorsClick_palette (w : World) :
    (onPasteColorsClick w).palette
        = pasteLoop w.paletteView.selectedEntries w.editor.m_clipboardColors w.palette
      ∧ (onPasteColorsClick w).editor.m_clipboardColors = w.editor.m_clipboardColors := by
  unfold onPasteColorsClick
  simp only
  rw [(onPalChange_palette _).1, (onPalChange_palette _).2]
  unfold updateColorBar
  simp only [World.emit]
  rw [(updateCurrentSpritePalette_palette _ _).1, (updateCurrentSpritePalette_palette _ _).2.1]
  exact ⟨rfl, rfl⟩


/-- C6: when the clipboard holds no more values than there are selected
indices, the paste loop gives clipboard value `t` to the `t`-th selected index
(ascending) and leaves every other entry as it was, the selected indices
beyond the clipboard included. -/
theorem paste_into_wider_selection (sel : SelectedEntries) (clip : List Nat) (pal : Palette)
    (hlen : sel.length = pal.length)
    (hk : clip.length ≤ (selectedIndices sel).length) :
    (∀ t p v : Nat, (selectedIndices sel)[t]? = some p → clip[t]? = some v →
        (pasteLoop sel clip pal)[p]? = some v)
      ∧ (∀ p : Nat, (∀ t, t < clip.length → (selectedIndices sel)[t]? ≠ some p) →
        (pasteLoop sel clip pal)[p]? = pal[p]?)
      ∧ (pasteLoop sel clip pal).length = pal.length := by
  have hE1 : ∀ p, selectionEnd sel sel.length ≤ p → isSelected sel p = false := by
    intro p hp
    by_cases hpn : p < sel.length
    · exact selectionEnd_clear sel _ p hp hpn
    · exact isSelected_of_length_le sel p (by omega)
  have hE2 := selectionEnd_last sel sel.length
  have hEn := selectionEnd_le sel sel.length
  refine ⟨?_, ?_, pasteLoop_length sel clip pal⟩
  · intro t p v hsel hclip
    rw [selectedIndices_getElem?] at hsel
    obtain ⟨hs, hc⟩ := hsel
    rw [List.getElem?_eq_some_iff] at hclip
    obtain ⟨htm, hv⟩ := hclip
    have hpn := isSelected_lt_length sel p hs
    have hpE : p < selectionEnd sel sel.length := by
      by_contra hcon
      have := hE1 p (by omega)
      rw [this] at hs
      exact absurd hs (by decide)
    have h0 : p - selectionEnd sel sel.length = 0 := by omega
    rw [pasteLoop_getElem? sel clip pal _ hE1 hE2 p, h0, Nat.add_zero, hc,
      if_pos ⟨Or.inl hs, htm⟩]
    have hpal : pal[p]? = some pal[p] := List.getElem?_eq_getElem (by omega)
    rw [hpal, List.getD_eq_getElem _ _ htm, hv]
    rfl
  · intro p hp
    rw [pasteLoop_getElem? sel clip pal _ hE1 hE2 p]
    by_cases hs : isSelected sel p = true
    · have hpE : p < selectionEnd sel sel.length := by
        by_contra hcon
        have := hE1 p (by omega)
        rw [this] at hs
        exact absurd hs (by decide)
      have h0 : p - selectionEnd sel sel.length = 0 := by omega
      rw [h0, Nat.add_zero]
      by_cases hc : selectedBefore sel p < clip.length
      · exact absurd ((selectedIndices_getElem? sel _ p).2 ⟨hs, rfl⟩) (hp _ hc)
      · rw [if_neg (fun h => hc h.2)]
    · by_cases hpE : selectionEnd sel sel.length ≤ p
      · have hc := selectedBefore_const sel _ hE1 p hpE
        have hc2 := selectedBefore_const sel _ hE1 sel.length hEn
        have hk2 := length_selectedIndices sel
        rw [if_neg]
        intro h
        omega
      · rw [if_neg]
        rintro ⟨h | h, _⟩
        · exact hs h
        · exact hpE h.1

/-- C7: when the clipboard holds more values than there are selected indices
and `last` is the last selected index, the paste loop gives clipboard value
`t` to the `t`-th selected index, the values after those to the indices
`last + 1`, `last + 2`, ... up to the end of the palette, selected or not, and
leaves every other entry as it was. -/
theorem paste_overflows_past_selection (sel : SelectedEntries) (clip : List Nat)
    (pal : Palette) (last : Nat)
    (hlen : sel.length = pal.length)
    (hlast : isSelected sel last = true)
    (hafter : ∀ p, last < p → isSelected sel p = false)
    (hmore : (selectedIndices sel).length < clip.length) :
    (∀ t p v : Nat, (selectedIndices sel)[t]? = some p → clip[t]? = some v →
        (pasteLoop sel clip pal)[p]? = some v)
      ∧ (∀ t v : Nat, clip[(selectedIndices sel).length + t]? = some v →
        last + 1 + t < pal.length → (pasteLoop sel clip pal)[last + 1 + t]? = some v)
      ∧ (∀ p : Nat, isSelected sel p = false →
        (p ≤ last ∨ last + 1 + (clip.length - (selectedIndices sel).length) ≤ p) →
        (pasteLoop sel clip pal)[p]? = pal[p]?)
      ∧ (pasteLoop sel clip pal).length = pal.length := by
  have hE1 : ∀ p, last + 1 ≤ p → isSelected sel p = false := fun p hp => hafter p (by omega)
  have hE2 : last + 1 = 0 ∨ isSelected sel (last + 1 - 1) = true := Or.inr (by simpa using hlast)
  have hlastn := isSelected_lt_length sel last hlast
  have hk : (selectedIndices sel).length = selectedBefore sel (last + 1) := by
    rw [length_selectedIndices]
    exact selectedBefore_const sel _ hE1 sel.length (by omega)
  refine ⟨?_, ?_, ?_, pasteLoop_length sel clip pal⟩
  · intro t p v hsel hclip
    rw [selectedIndices_getElem?] at hsel
    obtain ⟨hs, hc⟩ := hsel
    rw [List.getElem?_eq_some_iff] at hclip
    obtain ⟨htm, hv⟩ := hclip
    have hpn := isSelected_lt_length sel p hs
    have hpE : p < last + 1 := by
      by_contra hcon
      have := hE1 p (by omega)
      rw [this] at hs
      exact absurd hs (by decide)
    have h0 : p - (last + 1) = 0 := by omega
    rw [pasteLoop_getElem? sel clip pal _ hE1 hE2 p]
    simp only [h0, Nat.add_zero, hc]
    rw [if_pos ⟨Or.inl hs, htm⟩]
    have hpal : pal[p]? = some pal[p] := List.getElem?_eq_getElem (by omega)
    rw [hpal, List.getD_eq_getElem _ _ htm, hv]
    rfl
  · intro t v hclip hin
    rw [List.getElem?_eq_some_iff] at hclip
    obtain ⟨htm, hv⟩ := hclip
    have hc := selectedBefore_const sel _ hE1 (last + 1 + t) (by omega)
    have h0 : last + 1 + t - (last + 1) = t := by omega
    have hidx : selectedBefore sel (last + 1 + t) + t = (selectedIndices sel).length + t := by
      omega
    rw [pasteLoop_getElem? sel clip pal _ hE1 hE2 (last + 1 + t), h0, hidx,
      if_pos ⟨Or.inr ⟨by omega, by omega⟩, htm⟩]
    have hpal : pal[last + 1 + t]? = some pal[last + 1 + t] := List.getElem?_eq_getElem hin
    rw [hpal, List.getD_eq_getElem _ _ htm, hv]
    rfl
  · intro p hs hp
    rw [pasteLoop_getElem? sel clip pal _ hE1 hE2 p]
    rw [if_neg]
    rintro ⟨h | h, hlt⟩
    · rw [hs] at h
      exact absurd h (by decide)
    · have hc := selectedBefore_const sel _ hE1 p h.1
      omega

theorem isSelected_after_two (p : Nat) (hp : 2 < p) :
    isSelected [false, true, true, false, false, false, false, false] p = false := by
  by_cases h : p < 8
  · interval_cases p <;> decide
  · exact isSelected_of_length_le _ p (by simpa using h)

/-- Witness of C6: two copied colours pasted into a selection five wide. -/
theorem paste_into_wider_selection_witness :
    (pasteLoop [false, true, true, true, true, true, false] [100, 200]
        [0, 1, 2, 3, 4, 5, 6])[1]? = some 100
      ∧ (pasteLoop [false, true, true, true, true, true, false] [100, 200]
        [0, 1, 2, 3, 4, 5, 6])[2]? = some 200
      ∧ (pasteLoop [false, true, true, true, true, true, false] [100, 200]
        [0, 1, 2, 3, 4, 5, 6])[3]? = some 3 :=
  ⟨(paste_into_wider_selection [false, true, true, true, true, true, false] [100, 200]
      [0, 1, 2, 3, 4, 5, 6] (by decide) (by decide)).1 0 1 100 (by decide) (by decide),
    (paste_into_wider_selection [false, true, true, true, true, true, false] [100, 200]
      [0, 1, 2, 3, 4, 5, 6] (by decide) (by decide)).1 1 2 200 (by decide) (by decide),
    (paste_into_wider_selection [false, true, true, true, true, true, false] [100, 200]
      [0, 1, 2, 3, 4, 5, 6] (by decide) (by decide)).2.1 3
      (by intro t ht; have h2 : t < 2 := ht; interval_cases t <;> decide)⟩

/-- Witness of C7: five colours pasted into a selection two wide. -/
theorem paste_overflows_past_selection_witness :
    (pasteLoop [false, true, true, false, false, false, false, false] [10, 20, 30, 40, 50]
        [0, 1, 2, 3, 4, 5, 6, 7])[2]? = some 20
      ∧ (pasteLoop [false, true, true, false, false, false, false, false] [10, 20, 30, 40, 50]
        [0, 1, 2, 3, 4, 5, 6, 7])[5]? = some 50
      ∧ (pasteLoop [false, true, true, false, false, false, false, false] [10, 20, 30, 40, 50]
        [0, 1, 2, 3, 4, 5, 6, 7])[6]? = some 6 :=
  ⟨(paste_overflows_past_selection [false, true, true, false, false, false, false, false]
      [10, 20, 30, 40, 50] [0, 1, 2, 3, 4, 5, 6, 7] 2 (by decide) (by decide)
      isSelected_after_two (by decide)).1 1 2 20 (by decide) (by decide),
    (paste_overflows_past_selection [false, true, true, false, false, false, false, false]
      [10, 20, 30, 40, 50] [0, 1, 2, 3, 4, 5, 6, 7] 2 (by decide) (by decide)
      isSelected_after_two (by decide)).2.1 2 50 (by decide) (by decide),
    (paste_overflows_past_selection [false, true, true, false, false, false, false, false]
      [10, 20, 30, 40, 50] [0, 1, 2, 3, 4, 5, 6, 7] 2 (by decide) (by decide)
      isSelected_after_two (by decide)).2.2.1 6 (by decide) (Or.inr (by decide))⟩

/-! ## Undo coalescing and the redraw timer -/

theorem count_graft (u : UndoHistory) (x : Undoer) (y : Undoer) :
    (u.graftUndoerInLastGroup x).undoers.count y = u.undoers.count y + [x].count y := by
  unfold UndoHistory.graftUndoerInLastGroup
  simp only [List.count_append]
  cases h : u.undoers.getLast? with
  | none =>
    have : u.undoers = [] := by simpa using h
    simp [this]
  | some a =>
    have := List.dropLast_append_getLast? a h
    have hc : u.undoers.count y = (u.undoers.dropLast ++ [a]).count y := by rw [this]
    rw [hc, List.count_append]
    simp only [Option.toList]
    omega

theorem update_document (operationName : String) (w : World) (doc : Document)
    (hdoc : w.document = some doc) (hlock : doc.lockFails = false) :
    (updateCurrentSpritePalette operationName w).document
      = some (updateDocument w.editor.m_graftChange operationName w.palette doc) := by
  cases h : w.editor.timerRunning <;>
    simp [updateCurrentSpritePalette, hdoc, hlock, World.emit, h]

theorem update_graftChange (operationName : String) (w : World) :
    (updateCurrentSpritePalette operationName w).editor.m_graftChange = true := by
  unfold updateCurrentSpritePalette
  simp

theorem updateDocument_of_diff (graft : Bool) (operationName : String) (newPalette : Palette)
    (doc : Document) (henabled : doc.undo.enabled = true)
    (hdiff : 0 ≤ (countDiff doc.spritePalette newPalette).1
      ∧ (countDiff doc.spritePalette newPalette).1 ≤ (countDiff doc.spritePalette newPalette).2) :
    updateDocument graft operationName newPalette doc
      = { doc with
          undo := recordUndo graft operationName doc.undo doc.spritePalette
            (countDiff doc.spritePalette newPalette).1.toNat
            (countDiff doc.spritePalette newPalette).2.toNat,
          spritePalette := newPalette } := by
  unfold updateDocument
  simp only [UndoHistory.isEnabled, henabled, if_true]
  rw [if_pos ⟨hdiff.1, hdiff.2⟩]

theorem recordUndo_push (graft : Bool) (operationName : String) (undo : UndoHistory)
    (pal : Palette) (a b : Nat) (h : ¬ (graft = true ∧ undo.label = operationName)) :
    recordUndo graft operationName undo pal a b
      = { undo with
          label := operationName, modification := Modification.ModifyDocument,
          undoers := undo.undoers
            ++ [Undoer.OpenGroup, mkSetPaletteColors pal a b, Undoer.CloseGroup] } := by
  unfold recordUndo
  have : (graft && (undo.getLabel == operationName)) = false := by
    cases graft with
    | false => rfl
    | true =>
      have hne : undo.label ≠ operationName := fun e => h ⟨rfl, e⟩
      simp [UndoHistory.getLabel, hne]
  rw [this]
  simp [UndoHistory.setLabel, UndoHistory.setModification, UndoHistory.pushUndoer]

theorem recordUndo_graft (operationName : String) (undo : UndoHistory)
    (pal : Palette) (a b : Nat) (h : undo.label = operationName) :
    recordUndo true operationName undo pal a b
      = ((undo.setLabel operationName).setModification
          Modification.ModifyDocument).graftUndoerInLastGroup (mkSetPaletteColors pal a b) := by
  unfold recordUndo
  simp [UndoHistory.getLabel, h]

theorem recordUndo_label (graft : Bool) (operationName : String) (undo : UndoHistory)
    (pal : Palette) (a b : Nat) :
    (recordUndo graft operationName undo pal a b).label = operationName := by
  unfold recordUndo
  split <;>
    simp [UndoHistory.setLabel, UndoHistory.setModification, UndoHistory.pushUndoer,
      UndoHistory.graftUndoerInLastGroup]

theorem recordUndo_enabled (graft : Bool) (operationName : String) (undo : UndoHistory)
    (pal : Palette) (a b : Nat) :
    (recordUndo graft operationName undo pal a b).enabled = undo.enabled := by
  unfold recordUndo
  split <;>
    simp [UndoHistory.setLabel, UndoHistory.setModification, UndoHistory.pushUndoer,
      UndoHistory.graftUndoerInLastGroup]

theorem recordUndo_getLast? (graft : Bool) (operationName : String) (undo : UndoHistory)
    (pal : Palette) (a b : Nat) (h : ¬ (graft = true ∧ undo.label = operationName)) :
    (recordUndo graft operationName undo pal a b).undoers.dropLast
        = undo.undoers ++ [Undoer.OpenGroup, mkSetPaletteColors pal a b]
      ∧ (recordUndo graft operationName undo pal a b).undoers.getLast?
        = some Undoer.CloseGroup := by
  rw [recordUndo_push graft operationName undo pal a b h]
  simp only
  have e : undo.undoers ++ [Undoer.OpenGroup, mkSetPaletteColors pal a b, Undoer.CloseGroup]
      = (undo.undoers ++ [Undoer.OpenGroup, mkSetPaletteColors pal a b])
          ++ [Undoer.CloseGroup] := by simp
  rw [e]
  exact ⟨List.dropLast_concat, List.getLast?_concat _⟩

/-- C8: two consecutive calls of `updateCurrentSpritePalette` on an active,
writable document with an enabled history, each with a non-empty diff range
and with the graft flag untouched between them.  The second call opens no
group when its label is that of the first and one group otherwise; and when
the first call opens its own group, the history ends with one group holding
both ranges for equal labels, and with two groups for different labels. -/
theorem coalescing_by_label (L1 L2 : String) (w w1 : World) (doc : Document)
    (hdoc : w.document = some doc) (hlock : doc.lockFails = false)
    (henabled : doc.undo.enabled = true)
    (hdiff1 : 0 ≤ (countDiff doc.spritePalette w.palette).1
      ∧ (countDiff doc.spritePalette w.palette).1 ≤ (countDiff doc.spritePalette w.palette).2)
    (hmid_doc : w1.document = (updateCurrentSpritePalette L1 w).document)
    (hmid_graft : w1.editor.m_graftChange
      = (updateCurrentSpritePalette L1 w).editor.m_graftChange)
    (hdiff2 : 0 ≤ (countDiff w.palette w1.palette).1
      ∧ (countDiff w.palette w1.palette).1 ≤ (countDiff w.palette w1.palette).2) :
    ∃ d1 d2 : Document,
      (updateCurrentSpritePalette L1 w).document = some d1
        ∧ (updateCurrentSpritePalette L2 w1).document = some d2
        ∧ d2.undo.groupCount = d1.undo.groupCount + (if L1 = L2 then 0 else 1)
        ∧ (¬ (w.editor.m_graftChange = true ∧ doc.undo.label = L1) →
            d2.undo.undoers
                = doc.undo.undoers ++
                  (if L1 = L2 then
                    [Undoer.OpenGroup,
                      mkSetPaletteColors doc.spritePalette
                        (countDiff doc.spritePalette w.palette).1.toNat
                        (countDiff doc.spritePalette w.palette).2.toNat,
                      mkSetPaletteColors w.palette
                        (countDiff w.palette w1.palette).1.toNat
                        (countDiff w.palette w1.palette).2.toNat,
                      Undoer.CloseGroup]
                  else
                    [Undoer.OpenGroup,
                      mkSetPaletteColors doc.spritePalette
                        (countDiff doc.spritePalette w.palette).1.toNat
                        (countDiff doc.spritePalette w.palette).2.toNat,
                      Undoer.CloseGroup,
                      Undoer.OpenGroup,
                      mkSetPaletteColors w.palette
                        (countDiff w.palette w1.palette).1.toNat
                        (countDiff w.palette w1.palette).2.toNat,
                      Undoer.CloseGroup])
              ∧ d2.undo.groupCount = doc.undo.groupCount + (if L1 = L2 then 1 else 2)) := by
  have h1 := update_document L1 w doc hdoc hlock
  rw [updateDocument_of_diff _ L1 w.palette doc henabled hdiff1] at h1
  have hg1 : w1.editor.m_graftChange = true := by rw [hmid_graft, update_graftChange]
  generalize hd1 : ({ doc with
      undo := recordUndo w.editor.m_graftChange L1 doc.undo doc.spritePalette
        (countDiff doc.spritePalette w.palette).1.toNat
        (countDiff doc.spritePalette w.palette).2.toNat,
      spritePalette := w.palette } : Document) = d1 at h1
  have hpal1 : d1.spritePalette = w.palette := by rw [← hd1]
  have hundo1 : d1.undo = recordUndo w.editor.m_graftChange L1 doc.undo doc.spritePalette
      (countDiff doc.spritePalette w.palette).1.toNat
      (countDiff doc.spritePalette w.palette).2.toNat := by rw [← hd1]
  have hlock1 : d1.lockFails = false := by rw [← hd1]; exact hlock
  have hen1 : d1.undo.enabled = true := by rw [hundo1, recordUndo_enabled]; exact henabled
  have hlab1 : d1.undo.label = L1 := by rw [hundo1, recordUndo_label]
  have hdoc1 := hmid_doc.trans h1
  have h2 := update_document L2 w1 d1 hdoc1 hlock1
  rw [hg1, updateDocument_of_diff true L2 w1.palette d1 hen1 (by rw [hpal1]; exact hdiff2)]
    at h2
  rw [hpal1] at h2
  refine ⟨d1, _, h1, h2, ?_, ?_⟩
  · -- the second call alone
    simp only
    by_cases hL : L1 = L2
    · rw [if_pos hL, recordUndo_graft L2 _ _ _ _ (hlab1.trans hL)]
      unfold UndoHistory.groupCount
      rw [count_graft]
      simp [UndoHistory.setLabel, UndoHistory.setModification, mkSetPaletteColors]
    · rw [if_neg hL, recordUndo_push true L2 _ _ _ _
        (by rw [hlab1]; exact fun h => hL h.2)]
      unfold UndoHistory.groupCount
      simp [mkSetPaletteColors, List.count_append]
  · intro hfresh
    simp only
    have hd := recordUndo_getLast? w.editor.m_graftChange L1 doc.undo doc.spritePalette
      (countDiff doc.spritePalette w.palette).1.toNat
      (countDiff doc.spritePalette w.palette).2.toNat hfresh
    rw [← hundo1] at hd
    by_cases hL : L1 = L2
    · rw [if_pos hL, if_pos hL, recordUndo_graft L2 _ _ _ _ (hlab1.trans hL)]
      unfold UndoHistory.groupCount
      simp only [UndoHistory.graftUndoerInLastGroup, UndoHistory.setLabel,
        UndoHistory.setModification, hd.1, hd.2]
      simp [mkSetPaletteColors, List.count_append]
    · rw [if_neg hL, if_neg hL, recordUndo_push true L2 _ _ _ _
        (by rw [hlab1]; exact fun h => hL h.2)]
      simp only
      rw [hundo1, recordUndo_push _ L1 _ _ _ _ hfresh]
      unfold UndoHistory.groupCount
      simp [mkSetPaletteColors, List.count_append]

/-- Witness of C8: a first colour change on a fresh editor and a second one
with the same label give one group. -/
theorem coalescing_by_label_witness :
    ∃ d2 : Document,
      (updateCurrentSpritePalette "Color Change"
          { updateCurrentSpritePalette "Color Change" sampleWorld with
            palette := [1, 2, 9] }).document = some d2
        ∧ d2.undo.groupCount = 1 := by
  obtain ⟨d1, d2, _, h2, _, hf⟩ :=
    coalescing_by_label "Color Change" "Color Change" sampleWorld
      { updateCurrentSpritePalette "Color Change" sampleWorld with palette := [1, 2, 9] }
      { spritePalette := [0, 2, 3],
        undo := ⟨true, "", Modification.DoesntModifyDocument, []⟩,
        lockFails := false }
      rfl rfl rfl (by decide) rfl rfl (by decide)
  exact ⟨d2, h2, (hf (by decide)).2⟩

/-- C9: from a state with the timer armed, redraw-all false and the graft
flag set, the first timer message leaves the timer armed and the graft flag
set and sends no `PaletteChange`; the second stops the timer, clears the graft
flag and redraw-all, and sends `PaletteChange` exactly once. -/
theorem timer_two_phase_commit (w : World)
    (harmed : w.editor.timerRunning = true)
    (hall : w.editor.m_redrawAll = false)
    (hgraft : w.editor.m_graftChange = true) :
    (onProcessMessage (Message.timer true) w).editor.timerRunning = true
      ∧ (onProcessMessage (Message.timer true) w).editor.m_graftChange = true
      ∧ (onProcessMessage (Message.timer true) w).events
          = w.events ++ [Event.UpdateCurrentEditor]
      ∧ (onProcessMessage (Message.timer true)
          (onProcessMessage (Message.timer true) w)).editor.timerRunning = false
      ∧ (onProcessMessage (Message.timer true)
          (onProcessMessage (Message.timer true) w)).editor.m_graftChange = false
      ∧ (onProcessMessage (Message.timer true)
          (onProcessMessage (Message.timer true) w)).editor.m_redrawAll = false
      ∧ (onProcessMessage (Message.timer true)
          (onProcessMessage (Message.timer true) w)).events.count Event.PaletteChange
          = w.events.count Event.PaletteChange + 1
      ∧ (onProcessMessage (Message.timer true)
          (onProcessMessage (Message.timer true) w)).events.count Event.TimerStop
          = w.events.count Event.TimerStop + 1 := by
  have e1 : onProcessMessage (Message.timer true) w
      = { (w.emit Event.UpdateCurrentEditor) with
          editor := { w.editor with m_redrawAll := true } } := by
    simp [onProcessMessage, hall]
  rw [e1]
  refine ⟨harmed, hgraft, rfl, ?_, ?_, ?_, ?_, ?_⟩
  all_goals
    cases hd : w.document with
    | none =>
      simp [onProcessMessage, broadcastPaletteChange, onPalChange, World.emit, hd,
        List.count_append]
    | some doc =>
      cases hl : doc.lockFails <;>
        simp [onProcessMessage, broadcastPaletteChange, onPalChange, World.emit, hd, hl,
          List.count_append]

/-- Witness of C9: the state a colour change leaves on a fresh editor. -/
theorem timer_two_phase_commit_witness :
    (onProcessMessage (Message.timer true)
        (updateCurrentSpritePalette "Color Change" sampleWorld)).editor.timerRunning = true
      ∧ (onProcessMessage (Message.timer true)
          (onProcessMessage (Message.timer true)
            (updateCurrentSpritePalette "Color Change" sampleWorld))).editor.timerRunning
          = false :=
  ⟨(timer_two_phase_commit (updateCurrentSpritePalette "Color Change" sampleWorld)
      rfl rfl rfl).1,
    (timer_two_phase_commit (updateCurrentSpritePalette "Color Change" sampleWorld)
      rfl rfl rfl).2.2.2.1⟩

/-- C10: with the timer already armed, `updateCurrentSpritePalette` leaves it
armed without a call of `start`, sets redraw-all to false and the graft flag to
true; the timer message after it only refreshes the current editor: no
`PaletteChange`, no `stop`, the graft flag stays set. -/
theorem mutation_keeps_timer_armed (operationName : String) (w : World)
    (harmed : w.editor.timerRunning = true) :
    (updateCurrentSpritePalette operationName w).editor.timerRunning = true
      ∧ (updateCurrentSpritePalette operationName w).events.count Event.TimerStart
          = w.events.count Event.TimerStart
      ∧ (updateCurrentSpritePalette operationName w).editor.m_redrawAll = false
      ∧ (updateCurrentSpritePalette operationName w).editor.m_graftChange = true
      ∧ (onProcessMessage (Message.timer true)
          (updateCurrentSpritePalette operationName w)).events
          = (updateCurrentSpritePalette operationName w).events ++ [Event.UpdateCurrentEditor]
      ∧ (onProcessMessage (Message.timer true)
          (updateCurrentSpritePalette operationName w)).editor.timerRunning = true
      ∧ (onProcessMessage (Message.timer true)
          (updateCurrentSpritePalette operationName w)).editor.m_graftChange = true
      ∧ (onProcessMessage (Message.timer true)
          (updateCurrentSpritePalette operationName w)).editor.m_redrawAll = true := by
  have hrun : (updateCurrentSpritePalette operationName w).editor.timerRunning = true := by
    cases hd : w.document with
    | none => simp [updateCurrentSpritePalette, World.emit, hd, harmed]
    | some doc =>
      cases hl : doc.lockFails <;>
        simp [updateCurrentSpritePalette, World.emit, hd, hl, harmed]
  have hall : (updateCurrentSpritePalette operationName w).editor.m_redrawAll = false := by
    simp [updateCurrentSpritePalette]
  have hgraft := update_graftChange operationName w
  have hstart : (updateCurrentSpritePalette operationName w).events.count Event.TimerStart
      = w.events.count Event.TimerStart := by
    cases hd : w.document with
    | none => simp [updateCurrentSpritePalette, World.emit, hd, harmed, List.count_append]
    | some doc =>
      cases hl : doc.lockFails <;>
        simp [updateCurrentSpritePalette, World.emit, hd, hl, harmed, List.count_append]
  have e1 : onProcessMessage (Message.timer true) (updateCurrentSpritePalette operationName w)
      = { ((updateCurrentSpritePalette operationName w).emit Event.UpdateCurrentEditor) with
          editor := { (updateCurrentSpritePalette operationName w).editor with
            m_redrawAll := true } } := by
    simp [onProcessMessage, hall]
  refine ⟨hrun, hstart, hall, hgraft, ?_, ?_, ?_, ?_⟩
  · rw [e1]; rfl
  · rw [e1]; exact hrun
  · rw [e1]; exact hgraft
  · rw [e1]

/-- Witness of C10: a colour change after the first-phase timer message. -/
theorem mutation_keeps_timer_armed_witness :
    (onProcessMessage (Message.timer true)
        (updateCurrentSpritePalette "Color Change" sampleWorld)).editor.m_redrawAll = true
      ∧ (updateCurrentSpritePalette "Color Change"
          (onProcessMessage (Message.timer true)
            (updateCurrentSpritePalette "Color Change" sampleWorld))).editor.m_redrawAll
          = false :=
  ⟨by decide,
    (mutation_keeps_timer_armed "Color Change"
      (onProcessMessage (Message.timer true)
        (updateCurrentSpritePalette "Color Change" sampleWorld)) rfl).2.2.1⟩

/-! ## Re-applying an edit -/

theorem testBit_255 (j : Nat) : Nat.testBit 255 j = decide (j < 8) := by
  have h : (255 : Nat) = 2 ^ 8 - 1 := by norm_num
  rw [h, Nat.testBit_two_pow_sub_one]

theorem testBit_byte (b j : Nat) (hb : b < 256) (hj : 8 ≤ j) : Nat.testBit b j = false := by
  apply Nat.testBit_lt_two_pow
  have : 2 ^ 8 ≤ 2 ^ j := Nat.pow_le_pow_right (by decide) hj
  omega

theorem rgba_getr_low (r g b a : Nat) (hr : r < 256) : _rgba_getr (_rgba r g b a) = r := by
  apply Nat.eq_of_testBit_eq
  intro i
  unfold _rgba_getr _rgba
  simp only [Nat.testBit_and, Nat.testBit_shiftRight, Nat.testBit_mod_two_pow, Nat.testBit_or,
    Nat.testBit_shiftLeft, testBit_255]
  by_cases hi : i < 8
  · have h1 : ¬ (8 ≤ i) := by omega
    have h2 : ¬ (16 ≤ i) := by omega
    have h3 : ¬ (24 ≤ i) := by omega
    have h4 : i < 32 := by omega
    simp [hi, h1, h2, h3, h4]
  · have := testBit_byte r i hr (by omega)
    simp [hi, this]

theorem rgba_getg_low (r g b a : Nat) (hr : r < 256) (hg : g < 256) :
    _rgba_getg (_rgba r g b a) = g := by
  apply Nat.eq_of_testBit_eq
  intro i
  unfold _rgba_getg _rgba
  simp only [Nat.testBit_and, Nat.testBit_shiftRight, Nat.testBit_mod_two_pow, Nat.testBit_or,
    Nat.testBit_shiftLeft, testBit_255]
  by_cases hi : i < 8
  · have h1 : 8 ≤ 8 + i := by omega
    have h2 : ¬ (16 ≤ 8 + i) := by omega
    have h3 : ¬ (24 ≤ 8 + i) := by omega
    have h4 : 8 + i < 32 := by omega
    have h5 : 8 + i - 8 = i := by omega
    have h6 := testBit_byte r (8 + i) hr (by omega)
    simp [hi, h1, h2, h3, h4, h5, h6]
  · have := testBit_byte g i hg (by omega)
    simp [hi, this]

theorem rgba_absorb_getb (r g b a : Nat) (hb : b < 256) :
    _rgba r g (_rgba_getb (_rgba r g b a)) a = _rgba r g b a := by
  apply Nat.eq_of_testBit_eq
  intro i
  unfold _rgba_getb _rgba
  simp only [Nat.testBit_and, Nat.testBit_shiftRight, Nat.testBit_mod_two_pow, Nat.testBit_or,
    Nat.testBit_shiftLeft, testBit_255]
  by_cases h32 : i < 32
  · by_cases h16 : 16 ≤ i
    · have e : 16 + (i - 16) = i := by omega
      by_cases h24 : 24 ≤ i
      · have hx : ¬ (i - 16 < 8) := by omega
        have hy := testBit_byte b (i - 16) hb (by omega)
        simp [h32, h16, h24, e, hx, hy]
      · have hx : i - 16 < 8 := by omega
        have h8 : 8 ≤ i := by omega
        simp only [e, h32, h16, h24, hx, h8, decide_True, decide_False, Bool.true_and,
          Bool.false_and, Bool.and_true, Bool.or_false, Nat.sub_zero, ge_iff_le, Nat.zero_le]
        generalize r.testBit i = x
        generalize g.testBit (i - 8) = y
        generalize b.testBit (i - 16) = z
        cases x <;> cases y <;> cases z <;> rfl
    · simp [h32, h16]
  · simp [h32]

/-- The new packed value of one selected entry under an RGB-typed candidate. -/
theorem channelBody_rgb (D : Type) (M : ColorModel D) (r g b : Nat) (channel : Channel)
    (begSel endSel : Nat) (cur : Palette) (src : Nat) :
    channelBody M (Color.rgb r g b) channel begSel endSel cur src
      = if begSel = endSel then ⟨r, g, b⟩
        else rgbChannelSwitch channel r g b
          ⟨_rgba_getr src, _rgba_getg src, _rgba_getb src⟩ := by
  simp [channelBody, Color.getType, Color.getRed, Color.getGreen, Color.getBlue, Color.toRgb]

theorem rgb_entry_idempotent (D : Type) (M : ColorModel D) (r g b : Nat) (channel : Channel)
    (begSel endSel : Nat) (cur cur1 : Palette) (src : Nat) :
    _rgba
        (channelBody M (Color.rgb r g b) channel begSel endSel cur1
          (_rgba (channelBody M (Color.rgb r g b) channel begSel endSel cur src).red
            (channelBody M (Color.rgb r g b) channel begSel endSel cur src).green
            (channelBody M (Color.rgb r g b) channel begSel endSel cur src).blue 255)).red
        (channelBody M (Color.rgb r g b) channel begSel endSel cur1
          (_rgba (channelBody M (Color.rgb r g b) channel begSel endSel cur src).red
            (channelBody M (Color.rgb r g b) channel begSel endSel cur src).green
            (channelBody M (Color.rgb r g b) channel begSel endSel cur src).blue 255)).green
        (channelBody M (Color.rgb r g b) channel begSel endSel cur1
          (_rgba (channelBody M (Color.rgb r g b) channel begSel endSel cur src).red
            (channelBody M (Color.rgb r g b) channel begSel endSel cur src).green
            (channelBody M (Color.rgb r g b) channel begSel endSel cur src).blue 255)).blue 255
      = _rgba (channelBody M (Color.rgb r g b) channel begSel endSel cur src).red
          (channelBody M (Color.rgb r g b) channel begSel endSel cur src).green
          (channelBody M (Color.rgb r g b) channel begSel endSel cur src).blue 255 := by
  simp only [channelBody_rgb]
  have hr := rgba_getr_lt src
  have hg := rgba_getg_lt src
  have hb := rgba_getb_lt src
  by_cases h : begSel = endSel
  · simp only [if_pos h]
  · simp only [if_neg h]
    cases channel with
    | Red =>
      simp only [rgbChannelSwitch]
      exact rgba_absorb_getb r g (_rgba_getb src) 255 hb
    | Green =>
      simp only [rgbChannelSwitch]
      rw [rgba_getr_low _ _ _ _ hr]
      exact rgba_absorb_getb (_rgba_getr src) g (_rgba_getb src) 255 hb
    | Blue =>
      simp only [rgbChannelSwitch]
      rw [rgba_getr_low _ _ _ _ hr, rgba_getg_low _ _ _ _ hr hg]
    | Hue =>
      simp only [rgbChannelSwitch]
      obtain ⟨h1, h2, h3, -⟩ := rgba_components _ _ _ 255 hr hg hb (by omega)
      rw [h1, h2, h3]
    | Saturation =>
      simp only [rgbChannelSwitch]
      obtain ⟨h1, h2, h3, -⟩ := rgba_components _ _ _ 255 hr hg hb (by omega)
      rw [h1, h2, h3]
    | Value =>
      simp only [rgbChannelSwitch]
      obtain ⟨h1, h2, h3, -⟩ := rgba_components _ _ _ 255 hr hg hb (by omega)
      rw [h1, h2, h3]

/-- C12: with an RGB-typed candidate, applying `setPaletteEntry` twice gives
the palette of applying it once, and so does `setPaletteEntryChannel` for
every channel tag and every answer of `getSelectedRange`. -/
theorem edit_twice_is_edit_once {D : Type} (M : ColorModel D) (entries : SelectedEntries)
    (range : Option (Nat × Nat)) (color : Color) (channel : Channel) (palette : Palette)
    (htype : color.getType = ColorType.RgbType) :
    setPaletteEntry M entries color (setPaletteEntry M entries color palette)
        = setPaletteEntry M entries color palette
      ∧ setPaletteEntryChannel M entries range color channel
          (setPaletteEntryChannel M entries range color channel palette)
        = setPaletteEntryChannel M entries range color channel palette := by
  cases color with
  | hsv h s v => simp [Color.getType] at htype
  | index k => simp [Color.getType] at htype
  | rgb r g b =>
    refine ⟨?_, ?_⟩
    · apply List.ext_getElem?
      intro p
      rw [setPaletteEntry_getElem?, setPaletteEntry_getElem?]
      by_cases hs : isSelected entries p = true
      · simp only [if_pos hs, Color.getRed, Color.getGreen, Color.getBlue, Color.toRgb]
        cases palette[p]? <;> rfl
      · simp only [if_neg hs]
    · cases range with
      | none => rfl
      | some be =>
        obtain ⟨begSel, endSel⟩ := be
        apply List.ext_getElem?
        intro p
        rw [setPaletteEntryChannel_getElem?, setPaletteEntryChannel_getElem?]
        by_cases hs : isSelected entries p = true
        · simp only [if_pos hs]
          cases hp : palette[p]? with
          | none => rfl
          | some src =>
            simp only [Option.map_some']
            rw [rgb_entry_idempotent]
        · simp only [if_neg hs]

/-- Witness of C12: the channel `Red` over two selected entries. -/
theorem edit_twice_is_edit_once_witness :
    setPaletteEntryChannel sampleModel [true, true] (some (0, 1)) (Color.rgb 1 2 3) Channel.Red
        (setPaletteEntryChannel sampleModel [true, true] (some (0, 1)) (Color.rgb 1 2 3)
          Channel.Red [_rgba 10 20 30 255, _rgba 40 50 60 255])
      = setPaletteEntryChannel sampleModel [true, true] (some (0, 1)) (Color.rgb 1 2 3)
          Channel.Red [_rgba 10 20 30 255, _rgba 40 50 60 255] :=
  (edit_twice_is_edit_once sampleModel [true, true] (some (0, 1)) (Color.rgb 1 2 3)
    Channel.Red [_rgba 10 20 30 255, _rgba 40 50 60 255] rfl).2

/-! ## Closing the frame, empty diffs and the end of the coalescing window -/

/-- C11, as the code has it: `onCloseFrame` saves the window position and
unchecks the palette editor button; the timer, the graft flag, redraw-all and
every other field of the editor, the palette and the document are as before. -/
theorem onCloseFrame_keeps_scheduler (w : World) :
    (onCloseFrame w).editor = w.editor
      ∧ (onCloseFrame w).events
          = w.events ++ [Event.SaveWindowPos, Event.SetPaletteEditorButtonState false]
      ∧ (onCloseFrame w).palette = w.palette
      ∧ (onCloseFrame w).document = w.document := by
  simp [onCloseFrame, World.emit]

/-- C11 fails where a colour change is pending: after `onCloseFrame` the timer
is still armed and the graft flag is still set. -/
theorem onCloseFrame_timer_still_armed :
    (updateCurrentSpritePalette "Color Change" sampleWorld).editor.timerRunning = true
      ∧ (onCloseFrame
          (updateCurrentSpritePalette "Color Change" sampleWorld)).editor.timerRunning = true
      ∧ (onCloseFrame
          (updateCurrentSpritePalette "Color Change" sampleWorld)).editor.m_graftChange = true
      ∧ ¬ ((onCloseFrame
            (updateCurrentSpritePalette "Color Change" sampleWorld)).editor.timerRunning = false
          ∧ (onCloseFrame
            (updateCurrentSpritePalette "Color Change" sampleWorld)).editor.m_graftChange
              = false
          ∧ (onCloseFrame
            (updateCurrentSpritePalette "Color Change" sampleWorld)).editor.m_redrawAll
              = false) := by
  decide

theorem diffIndices_self (p : Palette) : diffIndices p p = [] := by
  unfold diffIndices
  simp

theorem countDiff_self (p : Palette) : countDiff p p = (-1, -1) := by
  unfold countDiff
  rw [diffIndices_self]
  rfl

theorem updateDocument_of_empty_diff (graft : Bool) (operationName : String)
    (newPalette : Palette) (doc : Document)
    (hempty : (countDiff doc.spritePalette newPalette).1 < 0
      ∨ (countDiff doc.spritePalette newPalette).2 < (countDiff doc.spritePalette newPalette).1) :
    updateDocument graft operationName newPalette doc = doc := by
  unfold updateDocument
  simp only
  rw [if_neg]
  rintro ⟨h1, h2⟩
  omega

/-- C13: when the range reported by `countDiff` is empty (`from < 0` or
`to < from`), `updateCurrentSpritePalette` leaves the document as it is: no
undoer is pushed or grafted, the label of the history stays, the palette of
the sprite is not assigned; this for every graft flag and every label.  Two
equal palettes report the empty range `(-1, -1)`. -/
theorem empty_diff_leaves_document (operationName : String) (w : World) (doc : Document)
    (hdoc : w.document = some doc)
    (hempty : (countDiff doc.spritePalette w.palette).1 < 0
      ∨ (countDiff doc.spritePalette w.palette).2 < (countDiff doc.spritePalette w.palette).1) :
    (updateCurrentSpritePalette operationName w).document = some doc
      ∧ countDiff doc.spritePalette doc.spritePalette = (-1, -1) := by
  refine ⟨?_, countDiff_self _⟩
  cases hl : doc.lockFails with
  | false =>
    rw [update_document operationName w doc hdoc hl,
      updateDocument_of_empty_diff _ _ _ _ hempty]
  | true =>
    cases ht : w.editor.timerRunning <;>
      simp [updateCurrentSpritePalette, World.emit, hdoc, hl, ht]

/-- Witness of C13: the system palette equals the palette of the sprite. -/
theorem empty_diff_leaves_document_witness :
    (updateCurrentSpritePalette "Color Change"
        { sampleWorld with palette := [0, 2, 3] }).document
      = some { spritePalette := [0, 2, 3],
               undo := ⟨true, "", Modification.DoesntModifyDocument, []⟩,
               lockFails := false } :=
  (empty_diff_leaves_document "Color Change" { sampleWorld with palette := [0, 2, 3] }
    { spritePalette := [0, 2, 3],
      undo := ⟨true, "", Modification.DoesntModifyDocument, []⟩,
      lockFails := false }
    rfl (by decide)).1

theorem isSelected_three_none (c : Nat) : isSelected [false, false, false] c = false := by
  by_cases h : c < 3
  · interval_cases c <;> decide
  · exact isSelected_of_length_le _ c (by simpa using h)

/-- C15: with no selected index the paste loop writes clipboard value `t` to
index `t` for every `t` below both the clipboard length and the palette size,
and leaves the entries from `min m n` on as they were; and
`onPasteColorsClick` never changes the clipboard. -/
theorem paste_with_empty_selection (sel : SelectedEntries) (clip : List Nat) (pal : Palette)
    (hlen : sel.length = pal.length)
    (hnone : ∀ c, isSelected sel c = false) :
    (∀ t v : Nat, clip[t]? = some v → t < pal.length →
        (pasteLoop sel clip pal)[t]? = some v)
      ∧ (∀ p : Nat, min clip.length pal.length ≤ p → (pasteLoop sel clip pal)[p]? = pal[p]?)
      ∧ (pasteLoop sel clip pal).length = pal.length
      ∧ ∀ w : World,
          (onPasteColorsClick w).editor.m_clipboardColors = w.editor.m_clipboardColors := by
  have hE1 : ∀ p, 0 ≤ p → isSelected sel p = false := fun p _ => hnone p
  have hE2 : (0 : Nat) = 0 ∨ isSelected sel (0 - 1) = true := Or.inl rfl
  have hc : ∀ p, selectedBefore sel p = 0 := by
    intro p
    have := selectedBefore_const sel 0 hE1 p (Nat.zero_le _)
    simpa [selectedBefore] using this
  refine ⟨?_, ?_, pasteLoop_length sel clip pal, fun w => (onPasteColorsClick_palette w).2⟩
  · intro t v hclip ht
    rw [List.getElem?_eq_some_iff] at hclip
    obtain ⟨htm, hv⟩ := hclip
    rw [pasteLoop_getElem? sel clip pal 0 hE1 hE2 t]
    simp only [hc, Nat.sub_zero, Nat.zero_add]
    rw [if_pos ⟨Or.inr ⟨Nat.zero_le _, by omega⟩, htm⟩]
    have hpal : pal[t]? = some pal[t] := List.getElem?_eq_getElem ht
    rw [hpal, List.getD_eq_getElem _ _ htm, hv]
    rfl
  · intro p hp
    rw [pasteLoop_getElem? sel clip pal 0 hE1 hE2 p]
    simp only [hc, Nat.sub_zero, Nat.zero_add]
    by_cases hpn : p < pal.length
    · rw [if_neg]
      rintro ⟨_, hlt⟩
      omega
    · have hnone2 : pal[p]? = none := List.getElem?_eq_none (by omega)
      rw [hnone2]
      split <;> rfl

/-- Witness of C15: two values pasted into a three-entry palette with nothing
selected. -/
theorem paste_with_empty_selection_witness :
    (pasteLoop [false, false, false] [100, 200] [0, 1, 2])[1]? = some 200
      ∧ (pasteLoop [false, false, false] [100, 200] [0, 1, 2])[2]? = some 2 :=
  ⟨(paste_with_empty_selection [false, false, false] [100, 200] [0, 1, 2] (by decide)
      isSelected_three_none).1 1 200 (by decide) (by decide),
    (paste_with_empty_selection [false, false, false] [100, 200] [0, 1, 2] (by decide)
      isSelected_three_none).2.1 2 (by decide)⟩

end PaletteEditor
